import Mathlib

/-!
Shallow embedding of the Tourli-chatbot Query Understanding & Answer Ranking
Engine (src/src/retrieval/retriever.py, src/src/retrieval/city_detector.py,
src/src/retrieval/world_city_formatter.py).

Strings are modelled as Lean `String` (lists of characters).  External
collaborators of the repository code — the Unicode NFKD/ASCII fold of
`unicodedata`, the nltk WordNet lemmatizer, the sklearn TF-IDF cosine
similarity, the OpenWeatherMap HTTP lookup, `np.random.choice`, and the libm
trigonometric functions used by the haversine formula — are modelled as
explicit function parameters, bundled in `ExtPrm` below, with their documented
properties taken as hypotheses where a proof needs them.  Everything that is
code of the repository itself (normalization, fuzzy matching, the gazetteer,
the intent classifier, the geocoding/distance subsystem and the whole decision
tree) is translated directly from the source.
-/

set_option maxRecDepth 20000

/-! ### Python character/string primitives -/

/-- The set of characters Python treats as whitespace (`str.strip`,
`str.split()`, and `\s` in `re` patterns on `str`). -/
def isPySpace (c : Char) : Bool :=
  let n := c.toNat
  n == 32 || (9 ≤ n && n ≤ 13) || (28 ≤ n && n ≤ 31) || n == 133 || n == 160 ||
  n == 5760 || (8192 ≤ n && n ≤ 8202) || n == 8232 || n == 8233 ||
  n == 8239 || n == 8287 || n == 12288

/-- ASCII lowercase letter `a`-`z`. -/
def isLowerAZ (c : Char) : Bool := 'a' ≤ c && c ≤ 'z'

/-- ASCII digit `0`-`9`. -/
def isDigit09 (c : Char) : Bool := '0' ≤ c && c ≤ '9'

/-- A word character for Python's `\b` / `\w` (modelled on the ASCII range
`[a-zA-Z0-9_]`; the engine only ever applies it to already-normalized
ASCII text). -/
def wordCharB (c : Char) : Bool := c.isAlphanum || c == '_'

/-- `str.lower()` (exact on the ASCII range the engine works in). -/
def pyLower (s : String) : String := String.mk (s.data.map Char.toLower)

/-- `str.strip()` on a character list. -/
def stripList (l : List Char) : List Char :=
  (((l.dropWhile isPySpace).reverse).dropWhile isPySpace).reverse

/-- `str.strip()`. -/
def pyStrip (s : String) : String := String.mk (stripList s.data)

/-- Helper for `re.sub(r'\s+', ' ', ·)`: the flag records whether the
previous character was whitespace (in which case further whitespace is
absorbed into the same single replacement space). -/
def collapseAux (prevSpace : Bool) : List Char → List Char
  | [] => []
  | c :: r =>
    if isPySpace c then
      if prevSpace then collapseAux true r else ' ' :: collapseAux true r
    else c :: collapseAux false r

/-- `re.sub(r'\s+', ' ', ·)`: every maximal run of whitespace becomes one
single space. -/
def collapseWs (l : List Char) : List Char := collapseAux false l

/-- `re.sub(r"'s\b", '', ·)`: drop an apostrophe-`s` pair whose `s` sits at a
word boundary, scanning left to right without overlap. -/
def removePoss : List Char → List Char
  | [] => []
  | '\x27' :: 's' :: rest =>
    if (match rest with | [] => true | d :: _ => !wordCharB d) then removePoss rest
    else '\x27' :: removePoss ('s' :: rest)
  | c :: r => c :: removePoss r

/-- `re.sub(r'[^a-z0-9\s]', '', ·)`: keep only lowercase ASCII letters,
digits and whitespace. -/
def filterAllowed (l : List Char) : List Char :=
  l.filter (fun c => isLowerAZ c || isDigit09 c || isPySpace c)

/-- `normalize_text` (retriever.py lines 23-31).  `nfkd` models the external
`unicodedata.normalize('NFKD', ·).encode('ascii','ignore').decode('utf-8')`
step; its one property used in proofs is that it is the identity on pure
ASCII strings. -/
def normalizeText (nfkd : String → String) (s : String) : String :=
  String.mk (stripList (collapseWs (filterAllowed (removePoss (nfkd (pyLower s)).data))))

/-! ### Python substring / word-boundary / split / replace helpers -/

/-- Python's `pat in s` substring test. -/
def isSubList (pat : List Char) : List Char → Bool
  | [] => pat.isEmpty
  | c :: t => pat.isPrefixOf (c :: t) || isSubList pat t

/-- Python's `pat in s` on strings. -/
def substrB (pat s : String) : Bool := isSubList pat.data s.data

/-- `re.search(r'\b' + re.escape(kw) + r'\b', s)` for a literal keyword that
starts and ends with word characters (true of every keyword the classifier
and the gazetteer normalize before matching). -/
def wholeWord (kw s : String) : Bool :=
  let k := kw.data
  let l := s.data
  (List.range (l.length + 1)).any (fun i =>
    k.isPrefixOf (l.drop i) &&
    (i == 0 || !wordCharB (l.getD (i - 1) ' ')) &&
    (i + k.length == l.length || !wordCharB (l.getD (i + k.length) ' ')))

/-- Helper for `str.split()`: `acc` is the current token, reversed. -/
def pyTokensAux : List Char → List Char → List (List Char)
  | [], acc => if acc.isEmpty then [] else [acc.reverse]
  | c :: r, acc =>
    if isPySpace c then
      if acc.isEmpty then pyTokensAux r [] else acc.reverse :: pyTokensAux r []
    else pyTokensAux r (c :: acc)

/-- `str.split()`: maximal non-whitespace runs (empty tokens dropped). -/
def pyTokens (l : List Char) : List (List Char) := pyTokensAux l []

/-- `str.split()` on strings. -/
def pySplit (s : String) : List String := (pyTokens s.data).map String.mk

/-- `" ".join(ws)`. -/
def joinSpace (ws : List String) : String := String.intercalate " " ws

/-- `lemmatize_text` (retriever.py lines 33-34); `lemWord` models the external
nltk `WordNetLemmatizer.lemmatize`. -/
def lemmatizeText (lemWord : String → String) (s : String) : String :=
  joinSpace ((pySplit s).map lemWord)

/-- Fuelled scanner for `str.replace` (fuel `length + 1` always suffices:
every step consumes at least one input character). -/
def replaceListF (old new : List Char) : Nat → List Char → List Char
  | 0, rest => rest
  | _ + 1, [] => []
  | f + 1, c :: t =>
    if old.isPrefixOf (c :: t) && !old.isEmpty then
      new ++ replaceListF old new f ((c :: t).drop old.length)
    else c :: replaceListF old new f t

/-- `str.replace(old, new)`: replace all non-overlapping occurrences, left to
right (total also for an empty pattern, which the engine never passes). -/
def replaceList (old new l : List Char) : List Char :=
  replaceListF old new (l.length + 1) l

/-- `str.replace` on strings. -/
def pyReplace (s old new : String) : String := String.mk (replaceList old.data new.data s.data)

/-- Helper for `str.title()`: the flag records whether the previous character
was a (cased) letter. -/
def titleAux (prevAlpha : Bool) : List Char → List Char
  | [] => []
  | c :: r =>
    (if c.isAlpha then (if prevAlpha then c.toLower else c.toUpper) else c) :: titleAux c.isAlpha r

/-- `str.title()` (exact on the ASCII range the engine works in). -/
def pyTitle (s : String) : String := String.mk (titleAux false s.data)

/-- `str.capitalize()`. -/
def pyCapitalize (s : String) : String :=
  match s.data with
  | [] => ""
  | c :: r => String.mk (c.toUpper :: r.map Char.toLower)

/-- `str.upper()`. -/
def pyUpper (s : String) : String := String.mk (s.data.map Char.toUpper)

/-! ### difflib: `SequenceMatcher.ratio` and `get_close_matches`

`SequenceMatcher` (with no junk heuristic, which is how the engine always
instantiates it on its short strings) computes the total size of the matching
blocks found by repeatedly taking the longest matching block — ties resolved
toward the lowest start in `a`, then the lowest start in `b` — and recursing
on the pieces to its left and right; `ratio = 2*matches/(len(a)+len(b))`,
and `1.0` when both strings are empty. -/

/-- Length of the common run starting at the heads of the two lists. -/
def runLen : List Char → List Char → Nat
  | a :: as, b :: bs => if a == b then runLen as bs + 1 else 0
  | _, _ => 0

/-- The longest matching block `(i, j, k)` of two strings: maximal `k`,
earliest `i`, then earliest `j` (the block found by
`SequenceMatcher.find_longest_match` with no junk). -/
def bestBlock (a b : List Char) : Nat × Nat × Nat :=
  (List.range a.length).foldl (fun acc i =>
    (List.range b.length).foldl (fun acc2 j =>
      let k := runLen (a.drop i) (b.drop j)
      if k > acc2.2.2 then (i, j, k) else acc2) acc) (0, 0, 0)

/-- Total size of all matching blocks, fuelled (the fuel `len a + len b` used
below always suffices: every recursive call strictly shrinks the combined
length). -/
def matchSumF : Nat → List Char → List Char → Nat
  | 0, _, _ => 0
  | f + 1, a, b =>
    match bestBlock a b with
    | (i, j, k) =>
      if k = 0 then 0
      else matchSumF f (a.take i) (b.take j) + k + matchSumF f (a.drop (i + k)) (b.drop (j + k))

/-- `SequenceMatcher(None, a, b).ratio()` as an exact rational. -/
def seqRatio (a b : String) : ℚ :=
  let la := a.data.length
  let lb := b.data.length
  if la + lb = 0 then 1
  else (2 * (matchSumF (la + lb) a.data b.data : ℚ)) / ((la : ℚ) + (lb : ℚ))

/-- `difflib.get_close_matches(w, cands, n=1, cutoff)[0]` (as an `Option`):
keep candidates with `ratio ≥ cutoff` and return the maximum by
`(ratio, candidate-string)` — `heapq.nlargest` compares the `(ratio, string)`
pairs lexicographically, so ratio ties go to the lexicographically largest
string.  `difflib` computes `ratio` with the candidate as sequence `a` and
the word as sequence `b`. -/
def closeMatch1 (w : String) (cands : List String) (cutoff : ℚ) : Option String :=
  (cands.foldl (fun acc c =>
    let r := seqRatio c w
    if cutoff ≤ r then
      match acc with
      | none => some (c, r)
      | some (cb, rb) => if rb < r ∨ (rb = r ∧ cb < c) then some (c, r) else acc
    else acc) none).map (·.1)

/-! ### Data model -/

/-- One corpus question/answer record (spec §3 CorpusEntry; the engine
defaults missing fields to the empty string). -/
structure QAEntry where
  question : String
  assistant : String
  city : String
  intent : String
deriving DecidableEq

/-- One gazetteer row (city_detector.py dict values / CSV rows).  String
fields hold the raw CSV text.  `lat`/`lng` model `float(value or 0.0)`:
`some q` when that parse yields `q` (an empty field yields `some 0`), `none`
when it raises.  `population` models `int(float(value))`: `none` for a
missing or unparsable field, which every reader defaults to `0`. -/
structure GazRow where
  city : String
  cityAscii : String
  country : String
  lat : Option ℚ
  lng : Option ℚ
  adminName : String
  capital : String
  population : Option ℤ
  iso2 : String
  iso3 : String
deriving DecidableEq

/-- Parsed population with the `0` default every call site applies. -/
def popOf (r : GazRow) : ℤ := r.population.getD 0

/-- The weather fields the engine reads from the external lookup, at the
display level at which Python's f-string renders them. -/
structure WeatherData where
  temperature : String
  humidity : String
  condition : String
  wind : String
deriving DecidableEq

/-- The external collaborators of the engine, as explicit functions:
`nfkd` = `unicodedata` NFKD + ASCII-ignore encode; `lemWord` = nltk
`WordNetLemmatizer.lemmatize`; `tfidf query i` = sklearn TF-IDF cosine
similarity between the query vector and the vector of corpus question `i`
(a cosine of non-negative vectors, hence in `[0,1]`); `weather` = the
`get_weather` HTTP lookup result; `choose` = `np.random.choice` over a list
of answer texts; `radiansQ`/`sinQ`/`cosQ`/`sqrtQ`/`atan2Q` = the libm
functions used by the haversine formula; `fmtKm` = `f"{d:,.1f}"`;
`fmtCoord` = `f"{x:.2f}"`. -/
structure ExtPrm where
  nfkd : String → String
  lemWord : String → String
  tfidf : String → Nat → ℚ
  weather : String → Option WeatherData
  choose : List String → String
  radiansQ : ℚ → ℚ
  sinQ : ℚ → ℚ
  cosQ : ℚ → ℚ
  sqrtQ : ℚ → ℚ
  atan2Q : ℚ → ℚ → ℚ
  fmtKm : ℚ → String
  fmtCoord : ℚ → String

/-- The engine state built at initialization: the corpus, the loaded global
gazetteer (an insertion-ordered mapping, as a Python dict), and the country
set derived from it. -/
structure Retriever where
  qaList : List QAEntry
  globalCities : List (String × GazRow)
  countries : List String

/-! ### Static tables (transcribed verbatim from the source) -/

/-- `CityDetector.moroccan_cities` (city_detector.py lines 23-31; a Python
set — modelled in declaration order, the deterministic order spec §9 fixes). -/
def moroccanCities : List String :=
  ["agadir", "al hoceima", "azrou", "beni mellal", "berkane",
   "casablanca", "chefchaouen", "dakhla", "el jadida", "errachidia",
   "essaouira", "fes", "guelmim", "ifrane", "kenitra",
   "khouribga", "laayoune", "larache", "marrakech", "martil",
   "meknes", "mohammedia", "nador", "ouarzazate", "oujda",
   "rabat", "safi", "sale", "tangier", "tetouan",
   "tiznit", "taroudant", "tata", "tanger med", "sidi ifni"]

/-- `CityDetector.moroccan_city_misspellings` (city_detector.py 34-52), in
dict declaration order. -/
def moroccanCityMisspellings : List (String × String) :=
  [("casa", "casablanca"), ("cali", "casablanca"), ("mkech", "marrakech"),
   ("marrakch", "marrakech"), ("marakech", "marrakech"), ("marakesh", "marrakech"),
   ("fesss", "fes"), ("ksablanka", "casablanca"), ("casablanka", "casablanca"),
   ("casablanca", "casablanca"), ("agdir", "agadir"), ("agad", "agadir"),
   ("rabay", "rabat"), ("tangr", "tangier"), ("tanger", "tangier"),
   ("tetouan", "tetouan"), ("meknes", "meknes")]

/-- `Retriever.cities` (retriever.py 152-160). -/
def retrCities : List String :=
  ["Agadir", "Al Hoceima", "Azrou", "Beni Mellal", "Berkane",
   "Casablanca", "Chefchaouen", "Dakhla", "El Jadida", "Errachidia",
   "Essaouira", "Fes", "Guelmim", "Ifrane", "Kenitra",
   "Khouribga", "Laayoune", "Larache", "Marrakech", "Martil",
   "Meknes", "Mohammedia", "Nador", "Ouarzazate", "Oujda",
   "Rabat", "Safi", "Sale", "Tangier", "Tetouan",
   "Tiznit", "Taroudant", "Tata", "Tanger Med", "Sidi Ifni"]

/-- `Retriever.generic_fallback` (retriever.py 176-180). -/
def genericFallback : List String :=
  ["I’m not sure about that yet.",
   "Could you clarify your question?",
   "Sorry, I don’t know that yet."]

/-- `city_abbreviations` local to `Retriever._extract_city` (retriever.py
194-200). -/
def cityAbbreviations : List (String × String) :=
  [("casa", "casablanca"), ("cali", "casablanca"), ("mkech", "marrakech"),
   ("meknes", "meknes"), ("fes", "fes")]

/-- `CITY_MATCH_THRESHOLD` (retriever.py 43). -/
def cityMatchThreshold : ℚ := 4/5

/-- `Retriever.intent_keywords` (retriever.py 101-150), in dict declaration
order. -/
def intentKeywords : List (String × List String) :=
  [("greeting", ["hello", "hi", "hey", "salam", "greetings", "yo", "good morning", "good evening"]),
   ("greeting_personal", ["how are you", "how\x27s it going", "what\x27s up", "how have you been"]),
   ("farewell", ["bye", "goodbye", "see you", "later", "take care"]),
   ("small_talk", ["how\x27s life", "nice weather", "what\x27s new", "how are things"]),
   ("joke_or_troll", ["joke", "funny", "make me laugh", "prank", "tagine swim"]),
   ("rude_or_aggressive", ["shut up", "stupid", "idiot", "annoying", "dumb"]),
   ("ask_beaches", ["beach", "swim", "sand", "ocean", "sea", "sunbathe", "coast", "shore", "swimming spot"]),
   ("ask_surfing", ["surf", "surfing", "waves", "board", "learn to surf"]),
   ("ask_waterfalls", ["waterfall", "cascade", "swimming spot", "hike to waterfall", "nature water"]),
   ("ask_food", ["food", "eat", "hungry", "meal", "snack", "what to eat", "fud", "find food", "eating", "cuisine"]),
   ("ask_restaurants", ["restaurant", "dining", "place to eat", "where to eat", "cafe", "seafood", "beach restaurants"]),
   ("ask_local_dishes", ["local dish", "bastilla", "Moroccan food", "specialty"]),
   ("ask_bars", ["bar", "pub", "alcohol", "drink", "cocktail", "wine", "beer"]),
   ("ask_clubs", ["club", "nightclub", "party", "dance", "DJ", "disco"]),
   ("ask_nightlife", ["nightlife", "party", "evening fun", "after dark", "night entertainment"]),
   ("ask_hotels", ["hotel", "stay", "accommodation", "lodging", "inn", "where to sleep"]),
   ("ask_riads", ["riad", "guesthouse", "traditional house", "Moroccan stay"]),
   ("ask_cheap_hotels", ["cheap hotel", "budget stay", "hostel", "low cost lodging"]),
   ("ask_landmarks", ["landmark", "monument", "must see", "historic site", "famous place", "old medinas", "medina", "places to visit"]),
   ("ask_attractions", ["attraction", "sight", "tourist spot"]),
   ("ask_museums", ["museum", "art gallery", "history museum", "exhibit", "cultural site"]),
   ("ask_nature", ["nature", "park", "garden", "natural site", "green area", "outdoors", "mountains", "explore"]),
   ("ask_parks", ["park", "botanical garden", "playground", "open space", "nature park"]),
   ("ask_hiking", ["hike", "trek", "trail", "mountain walk", "nature walk", "adventure hike"]),
   ("ask_things_to_do", ["activities", "fun things", "things to do", "what to do", "cool", "fun", "something to do", "what to see", "famous to see"]),
   ("ask_activities", ["activity", "experience", "adventure", "excursion", "recreational activity"]),
   ("ask_family_activities", ["kids", "child-friendly", "family fun", "children activity"]),
   ("ask_kid_friendly", ["kids", "child-friendly", "safe for children", "family-friendly"]),
   ("ask_transport", ["transport", "get around", "travel", "moving around", "how to go", "commute"]),
   ("ask_taxi", ["taxi", "cab", "ride", "grab a taxi", "hire transport"]),
   ("ask_public_transport", ["bus", "train", "metro", "tram", "public transport", "local transport"]),
   ("ask_airport", ["airport", "flight", "departure", "arrival", "plane"]),
   ("ask_weather", ["weather", "forecast", "rain", "sunny", "temperature", "climate", "how warm", "how cold", "weather conditions"]),
   ("ask_distance", ["distance", "how far", "how far is", "kilometers", "kilometres", "km", "miles", "how many km", "distance between", "how far from"]),
   ("ask_temperature", ["temperature", "hot", "cold", "degrees", "how warm", "how cold", "warm", "degrees"]),
   ("ask_safe_areas", ["safe", "security", "dangerous areas", "crime", "unsafe place"]),
   ("ask_scams", ["scam", "trick", "fraud", "cheat", "avoid scams"]),
   ("ask_safety", ["safety", "safe travel", "is it safe"]),
   ("ask_shopping", ["shopping", "buy", "mall", "store", "souvenir"]),
   ("ask_souks", ["souk", "bazaar", "traditional market", "artisan market", "handicraft"]),
   ("ask_markets", ["market", "best markets", "markets", "local market", "food market"]),
   ("ask_culture", ["culture", "tradition", "customs", "heritage", "local culture"]),
   ("ask_history", ["history", "heritage", "historical site", "old city", "past events"]),
   ("ask_festivals", ["festival", "celebration", "event", "cultural festival", "holiday"]),
   ("ask_best_time", ["best time", "season", "when to visit", "ideal time"]),
   ("ask_family", ["family", "travel with kids", "family-friendly", "with children"]),
   ("general_morocco", ["Morocco info", "country info", "overview", "general info", "Morocco guide", "about Morocco", "something about Morocco"]),
   ("irrelevant_question", ["random", "irrelevant", "off-topic", "not related"])]

/-! ### CityDetector (city_detector.py) -/

/-- `CityDetector._normalize_text` (city_detector.py 161-167): lower + strip,
drop characters that are neither word characters nor whitespace, collapse
whitespace, strip. -/
def cdNormalize (s : String) : String :=
  String.mk (stripList (collapseWs
    ((stripList (pyLower s).data).filter (fun c => wordCharB c || isPySpace c))))

/-- Dict lookup in the insertion-ordered gazetteer mapping. -/
def lookupGaz (gc : List (String × GazRow)) (k : String) : Option GazRow :=
  (gc.find? (fun p => p.1 == k)).map (·.2)

/-- `CityDetector.detect_moroccan_city` (city_detector.py 169-196):
misspelling whole-word matches first, then canonical whole-word matches,
then per-word fuzzy matching (words of length ≥ 4, cutoff 0.75).  The two
collections are Python sets/dicts; the model iterates them in declaration
order (the deterministic order spec §9 fixes). -/
def detectMoroccanCity (userInput : String) : Option String :=
  let query := cdNormalize userInput
  match moroccanCityMisspellings.findSome?
      (fun p => if wholeWord p.1 query then some p.2 else none) with
  | some c => some c
  | none =>
    match moroccanCities.find? (fun c => wholeWord c query) with
    | some c => some c
    | none =>
      (pySplit query).findSome? (fun w =>
        if 4 ≤ w.length then closeMatch1 w moroccanCities (3/4) else none)

/-- `CityDetector.detect_global_city` (city_detector.py 198-232): exact
matches of whitespace tokens of the raw input (normalized, length ≥ 4)
against gazetteer keys, candidates restricted to population ≥ 50000; the
highest-population candidate wins (stable sort, first among ties). -/
def detectGlobalCity (R : Retriever) (userInput : String) : Option GazRow :=
  let candidates := (pySplit userInput).filterMap (fun word =>
    let wc := cdNormalize word
    if 4 ≤ wc.length then
      match lookupGaz R.globalCities wc with
      | some d => if 50000 ≤ popOf d then some (d, popOf d) else none
      | none => none
    else none)
  (candidates.foldl (fun acc c =>
    match acc with
    | none => some c
    | some b => if c.2 > b.2 then some c else some b) none).map (·.1)

/-- `CityDetector.detect_city` (city_detector.py 242-262). -/
def detectCity (R : Retriever) (userInput : String) : Option String × Option GazRow :=
  match detectMoroccanCity userInput with
  | some m => (some m, none)
  | none =>
    match detectGlobalCity R userInput with
    | some g => (none, some g)
    | none => (none, none)

/-- `CityDetector.is_morocco_mentioned` (city_detector.py 264-266). -/
def isMoroccoMentioned (userInput : String) : Bool :=
  wholeWord "morocco" (pyLower userInput)

/-- `CityDetector.detect_country` (city_detector.py 268-298): whole-word (or
whole-phrase) scan of the country set, preferring the first non-Morocco hit. -/
def detectCountry (R : Retriever) (userInput : String) : Option String :=
  let query := cdNormalize userInput
  let detected := R.countries.filter (fun c => wholeWord c query)
  if detected.isEmpty then none
  else
    match detected.filter (fun c => pyLower c ≠ "morocco") with
    | [] => detected.head?
    | c :: _ => some c

/-! ### Gazetteer loader (city_detector.py `_load_global_cities`) -/

/-- The record the loader stores for a CSV row: the row with its city name
stripped (`'city': city_name`), every other field kept verbatim. -/
def storedRowOf (r : GazRow) : GazRow := { r with city := pyStrip r.city }

/-- The normalized key a row is stored under (`city_name.lower().strip()`),
or `none` when the stripped city name is empty and the row is skipped. -/
def gazKeyOf (r : GazRow) : Option String :=
  let cityName := pyStrip r.city
  if cityName = "" then none else some (pyStrip (pyLower cityName))

/-- Python-dict assignment `cities[k] = v`: replace in place, else append. -/
def upsertGaz (k : String) (v : GazRow) : List (String × GazRow) → List (String × GazRow)
  | [] => [(k, v)]
  | (k', v') :: t => if k' = k then (k, v) :: t else (k', v') :: upsertGaz k v t

/-- One loader iteration (city_detector.py 80-132): skip rows with an empty
city name; first occurrence of a key is stored; a later row replaces the
stored one exactly when its population is strictly larger. -/
def loadStep (m : List (String × GazRow)) (r : GazRow) : List (String × GazRow) :=
  match gazKeyOf r with
  | none => m
  | some key =>
    match lookupGaz m key with
    | none => upsertGaz key (storedRowOf r) m
    | some old =>
      if popOf r > popOf old then upsertGaz key (storedRowOf r) m else m

/-- `CityDetector._load_global_cities` (city_detector.py 60-141), cities
mapping. -/
def loadGlobalCities (rows : List GazRow) : List (String × GazRow) :=
  rows.foldl loadStep []

/-- The countries extracted while loading (`countries.add(country.lower()
.strip())` for rows with a nonempty stripped country); a Python set, modelled
in first-occurrence order (the deterministic order spec §9 fixes). -/
def loadCountries (rows : List GazRow) : List String :=
  ((rows.filter (fun r => pyStrip r.country ≠ "")).map
    (fun r => pyStrip (pyLower (pyStrip r.country)))).eraseDups

/-- The per-duplicate selection step the loader implements for one key:
first row stored, later rows replace it exactly when strictly more populous
(used to state the loader's dedup policy). -/
def pickStep (acc : Option GazRow) (x : GazRow) : Option GazRow :=
  match acc with
  | none => some (storedRowOf x)
  | some b => if popOf x > popOf b then some (storedRowOf x) else some b

/-! ### Retriever: fuzzy similarity, city extraction, intent detection -/

/-- `Retriever._fuzzy_similarity` (retriever.py 183-185). -/
def fuzzySimilarity (a b : String) : ℚ := seqRatio a b

/-- Python falsy-or on strings (`a or b`). -/
def orElseStr (a b : String) : String := if a ≠ "" then a else b

/-- `Retriever._extract_city` (retriever.py 190-221).  `get_answer` computes
this value (line 592) but never uses it; it is embedded for completeness.
The second loop's pattern `\bcity(?:'s)?\b` can only take the bare-name
branch on an apostrophe-free normalized query, so it equals a plain
whole-word match. -/
def extractCity (prm : ExtPrm) (userInput : String) : Option String :=
  let query := normalizeText prm.nfkd userInput
  let citiesNorm := retrCities.map (normalizeText prm.nfkd)
  match cityAbbreviations.findSome?
      (fun p => if wholeWord p.1 query then some (normalizeText prm.nfkd p.2) else none) with
  | some c => some c
  | none =>
    match citiesNorm.find? (fun cn => wholeWord cn query) with
    | some c => some c
    | none =>
      match (pySplit query).findSome?
          (fun w => if 4 ≤ w.length then closeMatch1 w citiesNorm (7/10) else none) with
      | some c => some c
      | none => closeMatch1 query citiesNorm (7/10)

/-- The keyword list of one intent category
(`self.intent_keywords.get(cat, [])`). -/
def kwsOf (cat : String) : List String :=
  ((intentKeywords.find? (fun p => p.1 == cat)).map (·.2)).getD []

/-- One `joke_or_troll` trigger test (retriever.py 235-238): plain substring
containment of the normalized trigger in the normalized query, or of its
lemma form in the lemmatized query, or fuzzy similarity `> 0.8`. -/
def jokeKwHit (prm : ExtPrm) (query queryLem kw : String) : Bool :=
  let kwNorm := normalizeText prm.nfkd kw
  let kwLem := lemmatizeText prm.lemWord kwNorm
  substrB kwNorm query || substrB kwLem queryLem ||
    decide (fuzzySimilarity query kwNorm > 4/5)

/-- One whole-word trigger test (retriever.py 244-249 and analogues):
whole-word match of the normalized trigger, or of its lemma form in the
lemmatized query, or fuzzy similarity `> 0.75`. -/
def wwKwHit (prm : ExtPrm) (query queryLem kw : String) : Bool :=
  let kwNorm := normalizeText prm.nfkd kw
  let kwLem := lemmatizeText prm.lemWord kwNorm
  wholeWord kwNorm query || wholeWord kwLem queryLem ||
    decide (fuzzySimilarity query kwNorm > 3/4)

/-- `Retriever._detect_intent` (retriever.py 226-278), with the source's loop
structure: `joke_or_troll` first, then `ask_distance`, then `ask_weather`,
then the remaining categories in declaration order, each trigger tested
against the plain and then the expanded query forms. -/
def detectIntent (prm : ExtPrm) (userInput : String) : Option String :=
  let query := normalizeText prm.nfkd userInput
  let queryLem := lemmatizeText prm.lemWord query
  let queryExpanded :=
    pyReplace (pyReplace (pyReplace query " 2 " " to ") " n " " in ") " cn " " can "
  let queryExpandedLem := lemmatizeText prm.lemWord queryExpanded
  match (kwsOf "joke_or_troll").find? (jokeKwHit prm query queryLem) with
  | some _ => some "joke_or_troll"
  | none =>
    match (kwsOf "ask_distance").find? (wwKwHit prm query queryLem) with
    | some _ => some "ask_distance"
    | none =>
      match (kwsOf "ask_weather").find? (wwKwHit prm query queryLem) with
      | some _ => some "ask_weather"
      | none =>
        intentKeywords.findSome? (fun p =>
          if p.1 ∈ ["joke_or_troll", "ask_weather", "ask_distance"] then none
          else p.2.findSome? (fun kw =>
            if wwKwHit prm query queryLem kw then some p.1
            else if wwKwHit prm queryExpanded queryExpandedLem kw then some p.1
            else none))

/-- Spec §4.6, step 2: some `joke_or_troll` trigger hits. -/
def trollTriggerHits (prm : ExtPrm) (query queryLem : String) : Bool :=
  (kwsOf "joke_or_troll").any (jokeKwHit prm query queryLem)

/-- Spec §4.6, step 3: some `ask_distance` trigger hits. -/
def distanceTriggerHits (prm : ExtPrm) (query queryLem : String) : Bool :=
  (kwsOf "ask_distance").any (wwKwHit prm query queryLem)

/-- Spec §4.6, step 4: some `ask_weather` trigger hits. -/
def weatherTriggerHits (prm : ExtPrm) (query queryLem : String) : Bool :=
  (kwsOf "ask_weather").any (wwKwHit prm query queryLem)

/-- Spec §4.6, step 5: the first remaining category, in declared order, with
any trigger hitting the plain or the expanded query forms. -/
def declaredOrderHit (prm : ExtPrm) (query queryLem queryExpanded queryExpandedLem : String) :
    Option String :=
  ((intentKeywords.filter
      (fun p => p.1 ∉ ["joke_or_troll", "ask_weather", "ask_distance"])).find?
    (fun p => p.2.any (fun kw =>
      wwKwHit prm query queryLem kw || wwKwHit prm queryExpanded queryExpandedLem kw))).map (·.1)

/-- The intent classifier as spec §4.6 words it: a fixed priority cascade
`troll > distance > weather > declaration order`. -/
def intentPrioritySpec (prm : ExtPrm) (userInput : String) : Option String :=
  let query := normalizeText prm.nfkd userInput
  let queryLem := lemmatizeText prm.lemWord query
  let queryExpanded :=
    pyReplace (pyReplace (pyReplace query " 2 " " to ") " n " " in ") " cn " " can "
  let queryExpandedLem := lemmatizeText prm.lemWord queryExpanded
  if trollTriggerHits prm query queryLem then some "joke_or_troll"
  else if distanceTriggerHits prm query queryLem then some "ask_distance"
  else if weatherTriggerHits prm query queryLem then some "ask_weather"
  else declaredOrderHit prm query queryLem queryExpanded queryExpandedLem

/-- Spec §4.6 step 2 as the frozen claim C8 words it: a `joke_or_troll` hit
is a *whole-word* match of the normalized trigger in the normalized text, or
a lemma match, or fuzzy similarity `> 0.8` against the normalized text. -/
def jokeKwHitClaimC8 (prm : ExtPrm) (query queryLem kw : String) : Bool :=
  let kwNorm := normalizeText prm.nfkd kw
  let kwLem := lemmatizeText prm.lemWord kwNorm
  wholeWord kwNorm query || wholeWord kwLem queryLem ||
    decide (fuzzySimilarity query kwNorm > 4/5)

/-! ### Retriever: geocoding and distance (retriever.py 386-574) -/

/-- The tuple `(name, lat, lng, country, score)` returned by
`find_city_coordinates`. -/
structure FoundCity where
  name : String
  lat : ℚ
  lng : ℚ
  country : String
  score : ℚ
deriving DecidableEq

/-- The guarded similarity local to `find_city_coordinates` (retriever.py
441-444): `0.0` when either string is empty, else the `SequenceMatcher`
ratio. -/
def simGuard (a b : String) : ℚ :=
  if a = "" ∨ b = "" then 0 else seqRatio a b

/-- First candidate by `(score desc, population desc)` — the head of Python's
stable `sorted(..., key=lambda x: (x[2], x[3]), reverse=True)`. -/
def pickBestCand : List (String × GazRow × ℚ × ℤ) → Option (String × GazRow × ℚ × ℤ)
  | [] => none
  | c :: t =>
    some (t.foldl (fun b c2 =>
      if b.2.2.1 < c2.2.2.1 ∨ (b.2.2.1 = c2.2.2.1 ∧ b.2.2.2 < c2.2.2.2) then c2 else b) c)

/-- One loop iteration of `find_city_coordinates` STEP 3-4 (retriever.py
432-458): similarity against the normalized key and the normalized ASCII
name, the Morocco boost, and the dynamic threshold filter; the kept
candidate is `(norm_key, v, score, pop)`. -/
def fcCandidateOf (prm : ExtPrm) (isMoroccanQuery : Bool) (query : String) (dynTh : ℚ)
    (p : String × GazRow) : Option (String × GazRow × ℚ × ℤ) :=
  let v := p.2
  let cityAsciiNorm := normalizeText prm.nfkd (orElseStr v.cityAscii v.city)
  let sim1 := simGuard query p.1
  let sim2 := simGuard query cityAsciiNorm
  let score0 := max sim1 sim2
  let score :=
    if isMoroccanQuery && (pyLower (pyStrip v.country) == "morocco") then
      min 1 (score0 + 3/20)
    else score0
  if dynTh ≤ score then some (p.1, v, score, popOf v) else none

/-- The tuple returned for the chosen candidate (retriever.py 479-497):
`None` when the stored coordinates fail to parse. -/
def fcResultOf (cityName : String) (c : String × GazRow × ℚ × ℤ) : Option FoundCity :=
  match c.2.1.lat, c.2.1.lng with
  | some lat, some lng =>
    some ⟨orElseStr c.2.1.city (orElseStr c.2.1.cityAscii cityName),
          lat, lng, c.2.1.country, c.2.2.1⟩
  | _, _ => none

/-- `Retriever.find_city_coordinates` (retriever.py 386-497). -/
def findCityCoordinates (prm : ExtPrm) (R : Retriever) (cityName : String) : Option FoundCity :=
  if cityName = "" then none
  else
    let query := normalizeText prm.nfkd cityName
    let gc := R.globalCities
    match lookupGaz gc query with
    | some data =>
      match data.lat, data.lng with
      | some lat, some lng =>
        some ⟨orElseStr data.city (orElseStr data.cityAscii cityName), lat, lng, data.country, 1⟩
      | _, _ => none
    | none =>
      let isMoroccanQuery := (detectMoroccanCity cityName).isSome
      let dynamicThreshold : ℚ := if query.length ≤ 5 then 9/10 else cityMatchThreshold
      let candidates := gc.filterMap (fcCandidateOf prm isMoroccanQuery query dynamicThreshold)
      let major := candidates.filter (fun c => 50000 ≤ c.2.2.2)
      let minor := candidates.filter (fun c => c.2.2.2 < 50000)
      let chosen := match pickBestCand major with
        | some c => some c
        | none => pickBestCand minor
      match chosen with
      | none => none
      | some c => fcResultOf cityName c

/-- `Retriever.haversine_distance` (retriever.py 499-511), over the abstract
libm functions of `ExtPrm` (Earth radius 6371.0 km). -/
def haversineQ (prm : ExtPrm) (lat1 lon1 lat2 lon2 : ℚ) : ℚ :=
  let rlat1 := prm.radiansQ lat1
  let rlon1 := prm.radiansQ lon1
  let rlat2 := prm.radiansQ lat2
  let rlon2 := prm.radiansQ lon2
  let dlat := rlat2 - rlat1
  let dlon := rlon2 - rlon1
  let a := prm.sinQ (dlat / 2) ^ 2 + prm.cosQ rlat1 * prm.cosQ rlat2 * prm.sinQ (dlon / 2) ^ 2
  let c := 2 * prm.atan2Q (prm.sqrtQ a) (prm.sqrtQ (1 - a))
  6371 * c

/-- The low-confidence clarification of `get_city_distance` (retriever.py
547-554): name the best guess, with its country when available. -/
def didYouMeanReply (name country : String) : String :=
  "I\x27m not sure which city you mean. Did you mean " ++
    (if country ≠ "" then name ++ " (" ++ country ++ ")" else name) ++ "?"

/-- The final reply text of `get_city_distance` (retriever.py 562-574). -/
def composeDistanceReply (nameA nameB : String) (bothMorocco : Bool) (distStr : String) : String :=
  if bothMorocco then
    "The distance between " ++ nameA ++ " and " ++ nameB ++ " is " ++ distStr ++ " km."
  else
    "My main specialty is Morocco, but here is the information you requested: " ++
      "The distance between " ++ nameA ++ " and " ++ nameB ++ " is " ++ distStr ++ " km."

/-- Morocco membership test of `get_city_distance` (retriever.py 565-566). -/
def foundIsMorocco (prm : ExtPrm) (f : FoundCity) : Bool :=
  pyLower (pyStrip f.country) == "morocco" ||
    moroccanCities.contains (normalizeText prm.nfkd f.name)

/-- `get_city_distance` after both cities resolved (retriever.py 545-574):
the low-confidence guards, then the haversine distance and the reply.  (The
source wraps the haversine call in a `try` whose handler is unreachable in
this total model; the 5-tuple always unpacks, so the 4-tuple compatibility
handlers at lines 536-543 are dead.) -/
def getCityDistanceFound (prm : ExtPrm) (fa fb : FoundCity) : String :=
  if fa.score < cityMatchThreshold then didYouMeanReply fa.name fa.country
  else if fb.score < cityMatchThreshold then didYouMeanReply fb.name fb.country
  else
    let dist := haversineQ prm fa.lat fa.lng fb.lat fb.lng
    let distStr := prm.fmtKm dist
    composeDistanceReply fa.name fb.name (foundIsMorocco prm fa && foundIsMorocco prm fb) distStr

/-- `Retriever.get_city_distance` (retriever.py 513-574). -/
def getCityDistance (prm : ExtPrm) (R : Retriever) (cityA cityB : String) : String :=
  if cityA = "" ∨ cityB = "" then "Please provide two valid city names."
  else
    match findCityCoordinates prm R cityA with
    | none => "I couldn\x27t identify that city, can you rephrase or specify the country?"
    | some fa =>
      match findCityCoordinates prm R cityB with
      | none => "I couldn\x27t identify that city, can you rephrase or specify the country?"
      | some fb => getCityDistanceFound prm fa fb

/-! ### World-city formatter (world_city_formatter.py) -/

/-- Digit grouping for `f"{n:,}"`, over the reversed digit list. -/
def commaGroupRev : List Char → Nat → List Char
  | [], _ => []
  | c :: r, k =>
    if k == 2 then c :: (match r with | [] => [] | _ :: _ => ',' :: commaGroupRev r 0)
    else c :: commaGroupRev r (k + 1)

/-- `f"{n:,}"`: decimal with thousands separators. -/
def commaFmt (n : ℤ) : String :=
  (if n < 0 then "-" else "") ++
    String.mk ((commaGroupRev (toString n.natAbs).data.reverse 0).reverse)

/-- `WorldCityResponseFormatter.format_world_city_response`
(world_city_formatter.py 12-73).  The rows it receives come from the loaded
gazetteer dict, so every key is present and the `.get` defaults are dead;
`lat`/`lng` render through `fmtCoord` (`f"{x:.2f}"`), skipped when the parse
fails. -/
def formatWorldCityResponse (prm : ExtPrm) (d : GazRow) : String :=
  let facts :=
    (if d.country ≠ "" ∧ d.country ≠ "N/A" then ["- Country: " ++ d.country] else []) ++
    (match d.population with
     | some p => ["- Population: " ++ commaFmt p]
     | none => []) ++
    (if d.adminName ≠ "" ∧ d.adminName ≠ "N/A" then ["- Located in: " ++ d.adminName] else []) ++
    (if d.capital ≠ "" ∧ d.capital ≠ "N/A" ∧ pyLower d.capital ≠ "admin" then
      ["- Capital: " ++ pyCapitalize d.capital] else []) ++
    (match d.lat, d.lng with
     | some la, some ln => ["- Coordinates: " ++ prm.fmtCoord la ++ ", " ++ prm.fmtCoord ln]
     | _, _ => [])
  "Sorry, " ++ d.city ++ " is not in Morocco so it\x27s not my specialty.\n" ++
    "But here\x27s what I found about " ++ d.city ++ ":\n" ++
    String.join ((facts.take 5).map (· ++ "\n")) ++
    "\nIf you want, I can help you explore amazing Moroccan cities instead!"

/-! ### Multi-city extractor (retriever.py `_extract_cities_from_text`, 283-381) -/

/-- Default tuple for (guarded) positional access into found-city lists. -/
def defaultFound : FoundCity := ⟨"", 0, 0, "", 0⟩

/-- The normalized display names already collected
(`[normalize_text(f[0]) for f in found]`). -/
def foundNames (prm : ExtPrm) (found : List FoundCity) : List String :=
  found.map (fun f => normalizeText prm.nfkd f.name)

/-- Append a resolved city unless its normalized display name is already
present. -/
def addFound (prm : ExtPrm) (found : List FoundCity) (c : FoundCity) : List FoundCity :=
  if (foundNames prm found).contains (normalizeText prm.nfkd c.name) then found
  else found ++ [c]

/-- Phase 1 (retriever.py 297-306): whole-word scan of the fixed Moroccan
city list against the normalized text, resolving hits. -/
def extractPhase1 (prm : ExtPrm) (R : Retriever) (textNorm : String) (maxCities : Nat) :
    List String → List FoundCity → List FoundCity
  | [], found => found
  | city :: rest, found =>
    if maxCities ≤ found.length then found
    else
      let found' :=
        if wholeWord (normalizeText prm.nfkd city) textNorm then
          match findCityCoordinates prm R city with
          | some coords => addFound prm found coords
          | none => found
        else found
      extractPhase1 prm R textNorm maxCities rest found'

/-- Phase 2 (retriever.py 309-316): whole-word scan of the Moroccan
misspelling map, resolving canonical forms. -/
def extractPhase2 (prm : ExtPrm) (R : Retriever) (textNorm : String) (maxCities : Nat) :
    List (String × String) → List FoundCity → List FoundCity
  | [], found => found
  | (mis, canonical) :: rest, found =>
    if maxCities ≤ found.length then found
    else
      let found' :=
        if wholeWord mis textNorm then
          match findCityCoordinates prm R canonical with
          | some coords => addFound prm found coords
          | none => found
        else found
      extractPhase2 prm R textNorm maxCities rest found'

/-- Match `\s+kw2\s+(.+)` at the head of `t`, returning the final group. -/
def matchSepTail (kw2 : List Char) (t : List Char) : Option (List Char) :=
  let k := (t.takeWhile isPySpace).length
  if k = 0 then none
  else
    let t1 := t.drop k
    if kw2.isPrefixOf t1 then
      let t2 := t1.drop kw2.length
      let m := (t2.takeWhile isPySpace).length
      if m = 0 then none
      else if t2.drop m = [] then none else some (t2.drop m)
    else none

/-- The lazy group of `(.+?)\s+kw2\s+(.+)`: the shortest nonempty prefix
whose remainder matches the separator and tail. -/
def lazySplitAt (kw2 : List Char) (s : List Char) : Option (List Char × List Char) :=
  (List.range (s.length + 1)).findSome? (fun q =>
    if q = 0 then none
    else
      match matchSepTail kw2 (s.drop q) with
      | some rest => some (s.take q, rest)
      | none => none)

/-- `re.search(kw1 + r'\s+(.+?)\s+' + kw2 + r'\s+(.+)', s)`: the leftmost
start position admitting a full match, with the lazy first group (the
keywords carry no word-boundary anchors, so a mid-word occurrence of `kw1`
also starts a match, as in the source pattern). -/
def findPairPattern (kw1 kw2 : List Char) (s : List Char) : Option (List Char × List Char) :=
  (List.range (s.length + 1)).findSome? (fun p =>
    let t := s.drop p
    if kw1.isPrefixOf t then
      let t1 := t.drop kw1.length
      let k := (t1.takeWhile isPySpace).length
      if k = 0 then none
      else lazySplitAt kw2 (t1.drop k)
    else none)

/-- `str.strip(' "\'')`. -/
def stripSet (cs : List Char) (l : List Char) : List Char :=
  (((l.dropWhile (cs.contains ·)).reverse).dropWhile (cs.contains ·)).reverse

/-- Phase 3 (retriever.py 322-337): `between A and B` / `from A to B` pattern
extraction on the lowercased text. -/
def extractPhase3 (prm : ExtPrm) (R : Retriever) (text : String) (maxCities : Nat)
    (found : List FoundCity) : List FoundCity :=
  if found.length < maxCities then
    let tl := (pyLower text).data
    let m :=
      match findPairPattern "between".data "and".data tl with
      | some ab => some ab
      | none => findPairPattern "from".data "to".data tl
    match m with
    | none => found
    | some (a, b) =>
      let candA := String.mk (stripSet [' ', '"', '\x27'] a)
      let candB := String.mk (stripSet [' ', '"', '\x27'] b)
      let found1 :=
        if maxCities ≤ found.length then found
        else
          match findCityCoordinates prm R candA with
          | some c => addFound prm found c
          | none => found
      if maxCities ≤ found1.length then found1
      else
        match findCityCoordinates prm R candB with
        | some c => addFound prm found1 c
        | none => found1
  else found

/-- A token character of the n-gram scan:
`re.findall(r"[\w\-À-ÖØ-öø-ÿ]+", ...)`. -/
def ngramTokenChar (c : Char) : Bool :=
  wordCharB c || c == '-' ||
    (0xC0 ≤ c.toNat && c.toNat ≤ 0xD6) ||
    (0xD8 ≤ c.toNat && c.toNat ≤ 0xF6) ||
    (0xF8 ≤ c.toNat && c.toNat ≤ 0xFF)

/-- Helper for run splitting: `acc` is the current run, reversed. -/
def splitRunsAux (p : Char → Bool) : List Char → List Char → List (List Char)
  | [], acc => if acc.isEmpty then [] else [acc.reverse]
  | c :: r, acc =>
    if p c then splitRunsAux p r (c :: acc)
    else if acc.isEmpty then splitRunsAux p r []
    else acc.reverse :: splitRunsAux p r []

/-- Maximal runs of characters satisfying `p`. -/
def splitRuns (p : Char → Bool) (l : List Char) : List (List Char) := splitRunsAux p l []

/-- Phase-4 tokenization (retriever.py 341-342): quotes replaced by spaces,
then word/hyphen/accent runs. -/
def ngramTokens (text : String) : List String :=
  (splitRuns ngramTokenChar
    (text.data.map (fun c => if c == '\x27' || c == '"' then ' ' else c))).map String.mk

/-- The stop-word set of the n-gram scan (retriever.py 345-350). -/
def commonWordsDist : List String :=
  ["whats", "what", "hows", "how", "the", "is", "are", "and", "or", "to", "from",
   "between", "distance", "far", "away", "where", "which", "when", "can", "will",
   "does", "did", "do", "about", "for", "as", "with", "at", "in", "on", "by",
   "of", "an", "a", "km", "kilometers", "miles", "you", "me", "him", "her"]

/-- Inner phase-4 loop over start positions `i` for one n-gram length `n`
(retriever.py 358-379), threading the found list and the used-span set. -/
def phase4Inner (prm : ExtPrm) (R : Retriever) (tokens : List String) (maxCities n : Nat) :
    List Nat → List FoundCity × List (Nat × Nat) → List FoundCity × List (Nat × Nat)
  | [], st => st
  | i :: is, (found, used) =>
    if maxCities ≤ found.length then (found, used)
    else if used.contains (i, i + n) then phase4Inner prm R tokens maxCities n is (found, used)
    else
      let phrase := joinSpace ((tokens.drop i).take n)
      if phrase.length < 2 then phase4Inner prm R tokens maxCities n is (found, used)
      else if n = 1 ∧ commonWordsDist.contains (pyLower phrase) then
        phase4Inner prm R tokens maxCities n is (found, used)
      else
        match findCityCoordinates prm R phrase with
        | some cand =>
          if (foundNames prm found).contains (normalizeText prm.nfkd cand.name) then
            phase4Inner prm R tokens maxCities n is (found, used)
          else
            phase4Inner prm R tokens maxCities n is
              (found ++ [cand], used ++ (List.range n).map (fun j => (i + j, i + j + 1)))
        | none => phase4Inner prm R tokens maxCities n is (found, used)

/-- Outer phase-4 loop over n-gram lengths `n = max_n, …, 1`. -/
def phase4Outer (prm : ExtPrm) (R : Retriever) (tokens : List String) (maxCities : Nat) :
    List Nat → List FoundCity × List (Nat × Nat) → List FoundCity × List (Nat × Nat)
  | [], st => st
  | n :: ns, (found, used) =>
    if maxCities ≤ found.length then (found, used)
    else
      phase4Outer prm R tokens maxCities ns
        (phase4Inner prm R tokens maxCities n (List.range (tokens.length + 1 - n)) (found, used))

/-- `[k, k-1, …, 1]` — `range(max_n, 0, -1)`. -/
def descRange (k : Nat) : List Nat := (List.range k).reverse.map (· + 1)

/-- Phase 4 (retriever.py 339-379): n-gram scan, longest first. -/
def extractPhase4 (prm : ExtPrm) (R : Retriever) (text : String) (maxCities : Nat)
    (found : List FoundCity) : List FoundCity :=
  if found.length < maxCities then
    let tokens := ngramTokens text
    (phase4Outer prm R tokens maxCities (descRange (min 4 tokens.length)) (found, [])).1
  else found

/-- `Retriever._extract_cities_from_text` (retriever.py 283-381). -/
def extractCitiesFromText (prm : ExtPrm) (R : Retriever) (text : String) (maxCities : Nat) :
    List FoundCity :=
  if text = "" then []
  else
    let textNorm := normalizeText prm.nfkd text
    let f1 := extractPhase1 prm R textNorm maxCities retrCities []
    if maxCities ≤ f1.length then f1
    else
      let f2 := extractPhase2 prm R textNorm maxCities moroccanCityMisspellings f1
      if maxCities ≤ f2.length then f2.take maxCities
      else extractPhase4 prm R text maxCities (extractPhase3 prm R text maxCities f2)

/-! ### Answer ranking engine (retriever.py `get_answer` and branches) -/

/-- Derived normalized question of a corpus entry (`_norm_question`). -/
def normQ (prm : ExtPrm) (e : QAEntry) : String := normalizeText prm.nfkd e.question

/-- Derived normalized city tag of a corpus entry (`_norm_city`). -/
def normCityE (prm : ExtPrm) (e : QAEntry) : String := normalizeText prm.nfkd e.city

/-- Derived normalized intent tag of a corpus entry (`_norm_intent` =
`intent.lower()`). -/
def normIntentE (e : QAEntry) : String := pyLower e.intent

/-- Out-of-range default for guarded positional access into the corpus. -/
def defaultEntry : QAEntry := ⟨"", "", "", ""⟩

/-- `self.qa_list[i]`. -/
def entryAt (R : Retriever) (i : Nat) : QAEntry := R.qaList.getD i defaultEntry

/-- The intents excluded from candidate selection (retriever.py 733). -/
def exclSet : List String := ["greeting", "farewell", "irrelevant_question", "rude_or_aggressive"]

/-- The intents answered by a uniformly random tagged entry
(retriever.py 725). -/
def shortcutSet : List String := ["greeting", "farewell", "joke_or_troll", "greeting_personal"]

/-- `list.sort(key=lambda x: x[1], reverse=True)`: Python's stable descending
sort by score, which insertion with `b.2 ≤ a.2` reproduces exactly. -/
def sortDescQ (l : List (String × ℚ)) : List (String × ℚ) :=
  l.insertionSort (fun a b => b.2 ≤ a.2)

/-- The greeting/farewell/troll shortcut shared by the three corpus branches
(retriever.py 725-728, 785-788, 852-855): `none` when it does not fire. -/
def shortcutAnswer (prm : ExtPrm) (R : Retriever) (detectedIntent : Option String) :
    Option (List (String × ℚ)) :=
  match detectedIntent with
  | some it =>
    if shortcutSet.contains it then
      let cands := R.qaList.filter (fun e => normIntentE e == it)
      if cands.isEmpty then none
      else some [(prm.choose (cands.map (·.assistant)), 1)]
    else none
  | none => none

/-- `Retriever._answer_moroccan_city_query` (retriever.py 714-765). -/
def answerMoroccanCityQuery (prm : ExtPrm) (R : Retriever) (userInput cityName : String)
    (topK : Nat) : List (String × ℚ) :=
  let userNorm := normalizeText prm.nfkd userInput
  let detectedIntent := detectIntent prm userInput
  match R.qaList.find? (fun e => normQ prm e == userNorm) with
  | some e => [(e.assistant, 1)]
  | none =>
    match shortcutAnswer prm R detectedIntent with
    | some r => r
    | none =>
      let candIdx0 := (List.range R.qaList.length).filter
        (fun i => !exclSet.contains (normIntentE (entryAt R i)))
      let cityMatches := candIdx0.filter (fun i => normCityE prm (entryAt R i) == cityName)
      let candIdx1 := if cityMatches.isEmpty then candIdx0 else cityMatches
      let candIdx :=
        match detectedIntent with
        | some it =>
          let intentMatches := candIdx1.filter (fun i => normIntentE (entryAt R i) == it)
          if intentMatches.isEmpty then candIdx1 else intentMatches
        | none => candIdx1
      if candIdx.isEmpty then [(prm.choose genericFallback, 0)]
      else
        let scored := candIdx.filterMap (fun i =>
          let tfidfScore := prm.tfidf userNorm i
          let fuzzyScore := fuzzySimilarity userNorm (normQ prm (entryAt R i))
          let finalScore := (6/10 : ℚ) * tfidfScore + (4/10 : ℚ) * fuzzyScore
          if finalScore > 3/20 then some ((entryAt R i).assistant, finalScore) else none)
        if scored.isEmpty then [(prm.choose genericFallback, 0)]
        else (sortDescQ scored).take topK

/-- First index of the maximum (`numpy argmax`). -/
def argmaxIdx : List ℚ → Nat
  | [] => 0
  | x :: t =>
    (t.foldl (fun acc y =>
      if y > acc.2.1 then (acc.2.2, y, acc.2.2 + 1) else (acc.1, acc.2.1, acc.2.2 + 1))
      ((0 : Nat), x, (1 : Nat))).1

/-- Maximum of a score list (`numpy max`; `0` on the empty list, which the
engine never passes). -/
def maxQList : List ℚ → ℚ
  | [] => 0
  | x :: t => t.foldl max x

/-- The per-candidate boosted score of the general-Morocco branch
(retriever.py 804-828). -/
def generalMoroccoScore (prm : ExtPrm) (R : Retriever) (userNorm : String)
    (keyWords : List String) (i : Nat) : ℚ :=
  let tfidfScore := prm.tfidf userNorm i
  let fuzzyScore := fuzzySimilarity userNorm (normQ prm (entryAt R i))
  let finalScore := (85/100 : ℚ) * tfidfScore + (15/100 : ℚ) * fuzzyScore
  let candidateQuestion := pyLower (normQ prm (entryAt R i))
  let boost0 := (keyWords.filter (fun w => substrB w candidateQuestion)).foldl
    (fun b w => b + (if 6 < w.length then (1/4 : ℚ) else 3/20)) 0
  let boost := min (4/5 : ℚ) boost0
  if 0 < boost then finalScore * (1 + boost) else finalScore

/-- The stop-word list of the keyword boost (retriever.py 811). -/
def boostStopWords : List String :=
  ["what", "are", "the", "a", "an", "is", "in", "of", "to", "for", "and", "or",
   "with", "on", "at", "by", "from", "main"]

/-- `Retriever._answer_general_morocco_query` (retriever.py 767-840).
(`query_words` is a Python set; the model dedups to first occurrences —
only sums and membership over it are used, so its order is irrelevant.) -/
def answerGeneralMoroccoQuery (prm : ExtPrm) (R : Retriever) (userInput : String)
    (topK : Nat) : List (String × ℚ) :=
  let userNorm := normalizeText prm.nfkd userInput
  let _userLem := lemmatizeText prm.lemWord userNorm
  match R.qaList.find? (fun e => normQ prm e == userNorm) with
  | some e => [(e.assistant, 1)]
  | none =>
    let detectedIntent := detectIntent prm userInput
    match shortcutAnswer prm R detectedIntent with
    | some r => r
    | none =>
      let gens := R.qaList.filter (fun e => normIntentE e == "general_morocco")
      if gens.isEmpty then [(prm.choose genericFallback, 0)]
      else
        let candIdx := gens.map (fun e => R.qaList.indexOf e)
        let sims := candIdx.map (fun i => prm.tfidf userNorm i)
        let queryWords := (pySplit (pyLower userNorm)).eraseDups
        let keyWords := queryWords.filter
          (fun w => !boostStopWords.contains w && 2 < w.length)
        let scored := candIdx.filterMap (fun i =>
          let s := generalMoroccoScore prm R userNorm keyWords i
          if s > 1/10 then some ((entryAt R i).assistant, s) else none)
        if scored.isEmpty then
          [((entryAt R (candIdx.getD (argmaxIdx sims) 0)).assistant, maxQList sims)]
        else (sortDescQ scored).take topK

/-- `Retriever._answer_generic_query` (retriever.py 842-887); returns at most
one answer regardless of `top_k`. -/
def answerGenericQuery (prm : ExtPrm) (R : Retriever) (userInput : String)
    (detectedIntent : Option String) (_topK : Nat) : List (String × ℚ) :=
  let userNorm := normalizeText prm.nfkd userInput
  match R.qaList.find? (fun e => normQ prm e == userNorm) with
  | some e => [(e.assistant, 1)]
  | none =>
    match shortcutAnswer prm R detectedIntent with
    | some r => r
    | none =>
      let candIdx0 := (List.range R.qaList.length).filter
        (fun i => !exclSet.contains (normIntentE (entryAt R i)))
      let candIdx :=
        match detectedIntent with
        | some it =>
          let intentMatches := candIdx0.filter (fun i => normIntentE (entryAt R i) == it)
          if intentMatches.isEmpty then candIdx0 else intentMatches
        | none => candIdx0
      if candIdx.isEmpty then [(prm.choose genericFallback, 0)]
      else
        let scored := candIdx.filterMap (fun i =>
          let tfidfScore := prm.tfidf userNorm i
          let fuzzyScore := fuzzySimilarity userNorm (normQ prm (entryAt R i))
          let finalScore := (6/10 : ℚ) * tfidfScore + (4/10 : ℚ) * fuzzyScore
          if finalScore > 3/20 then some ((entryAt R i).assistant, finalScore) else none)
        if scored.isEmpty then [(prm.choose genericFallback, 0)]
        else (sortDescQ scored).take 1

/-- The weather-failure retry prompt (retriever.py 615, 633). -/
def weatherFailMsg : String :=
  "I couldn’t find the weather for that city. Can you try another one?"

/-- The fixed weather reply template (retriever.py 621-625, 640-644). -/
def weatherReplyBody (cityDisplay : String) (w : WeatherData) : String :=
  "The weather in " ++ cityDisplay ++ " right now:\n" ++
    "• " ++ pyCapitalize w.condition ++ "\n" ++
    "• Temperature: " ++ w.temperature ++ "°C\n" ++
    "• Humidity: " ++ w.humidity ++ "%\n" ++
    "• Wind: " ++ w.wind ++ " m/s"

/-- Last-resort resolution of delimiter-split fragments, stopping at two
(retriever.py 672-679). -/
def resolveParts (prm : ExtPrm) (R : Retriever) : List String → List FoundCity → List FoundCity
  | [], acc => acc
  | p :: rest, acc =>
    if 2 ≤ acc.length then acc
    else
      match findCityCoordinates prm R p with
      | some c => resolveParts prm R rest (acc ++ [c])
      | none => resolveParts prm R rest acc

/-- Delimiter match at the head of `l` for
`re.split(r'between|and|to|from|,|;|\bvs\b', ·, flags=re.I)`: the length of
the alternative matching there, alternatives tried in pattern order. -/
def matchDelimAt (l : List Char) (prev : Option Char) : Option Nat :=
  let low := l.map Char.toLower
  if "between".data.isPrefixOf low then some 7
  else if "and".data.isPrefixOf low then some 3
  else if "to".data.isPrefixOf low then some 2
  else if "from".data.isPrefixOf low then some 4
  else if ",".data.isPrefixOf low then some 1
  else if ";".data.isPrefixOf low then some 1
  else if "vs".data.isPrefixOf low &&
      (match prev with | none => true | some p => !wordCharB p) &&
      (match l.drop 2 with | [] => true | d :: _ => !wordCharB d) then some 2
  else none

/-- Fuelled scanner for the delimiter split (fuel `length + 1` always
suffices: every step consumes at least one character). -/
def splitDelimsF : Nat → List Char → Option Char → List Char → List (List Char)
  | 0, rest, _, acc => [acc.reverse ++ rest]
  | _ + 1, [], _, acc => [acc.reverse]
  | f + 1, c :: t, prev, acc =>
    match matchDelimAt (c :: t) prev with
    | some k =>
      acc.reverse :: splitDelimsF f ((c :: t).drop k) (some ((c :: t).getD (k - 1) c)) []
    | none => splitDelimsF f t (some c) (c :: acc)

/-- `re.split(r'between|and|to|from|,|;|\bvs\b', s, flags=re.I)`. -/
def pySplitDelims (s : String) : List String :=
  (splitDelimsF (s.data.length + 1) s.data none []).map String.mk

/-- Fuelled scanner removing every case-insensitive occurrence of `pat`
(fuel `length + 1` always suffices). -/
def removeAllCIF (pat : List Char) : Nat → List Char → List Char
  | 0, rest => rest
  | _ + 1, [] => []
  | f + 1, c :: t =>
    if (pat.map Char.toLower).isPrefixOf ((c :: t).map Char.toLower) && !pat.isEmpty then
      removeAllCIF pat f ((c :: t).drop pat.length)
    else c :: removeAllCIF pat f t

/-- `re.sub(re.escape(pat), '', l, flags=re.I)`: remove every
case-insensitive occurrence, scanning left to right (retriever.py 665). -/
def removeAllCI (pat l : List Char) : List Char :=
  removeAllCIF pat (l.length + 1) l

/-- `Retriever.get_answer` (retriever.py 579-712).  The three `let _`
bindings mirror values the source computes and never reads (lines 583-584
and 592). -/
def getAnswer (prm : ExtPrm) (R : Retriever) (userInput : String) (topK : Nat) :
    List (String × ℚ) :=
  if pyStrip userInput = "" then [("Please ask a question.", 0)]
  else
    let _userNorm := normalizeText prm.nfkd userInput
    let _userLem := lemmatizeText prm.lemWord _userNorm
    let det := detectCity R userInput
    let moroccanCity := det.1
    let globalCity := det.2
    let moroccoMentioned := isMoroccoMentioned userInput
    let countryDetected := detectCountry R userInput
    let _oldCityDetect := extractCity prm userInput
    let detectedIntent := detectIntent prm userInput
    if detectedIntent == some "ask_weather" then
      match moroccanCity with
      | some c =>
        (match prm.weather c with
         | none => [(weatherFailMsg, 1/2)]
         | some w => [(weatherReplyBody (pyTitle c) w, 1)])
      | none =>
        match globalCity with
        | some g =>
          let cityQuery := orElseStr g.city (orElseStr g.cityAscii "")
          (match prm.weather cityQuery with
           | none => [(weatherFailMsg, 1/2)]
           | some w =>
             [("I don\x27t specialize outside Morocco, but here\x27s the weather:\n" ++
                 weatherReplyBody (pyTitle cityQuery) w, 1)])
        | none => [("Sure! Which city do you want the weather for?", 1/2)]
    else if detectedIntent == some "ask_distance" then
      let text := pyStrip userInput
      let found := extractCitiesFromText prm R text 2
      if 2 ≤ found.length then
        [(getCityDistance prm R (found.getD 0 defaultFound).name (found.getD 1 defaultFound).name, 1)]
      else
        let afterOne : Option (List (String × ℚ)) :=
          if found.length = 1 then
            let only := found.getD 0 defaultFound
            let remaining := pyStrip (String.mk (removeAllCI only.name.data text.data))
            match extractCitiesFromText prm R remaining 1 with
            | m :: _ => some [(getCityDistance prm R only.name m.name, 1)]
            | [] => none
          else none
        match afterOne with
        | some r => r
        | none =>
          let parts := ((pySplitDelims text).map pyStrip).filter (· ≠ "")
          let candidates := resolveParts prm R parts []
          if 2 ≤ candidates.length then
            [(getCityDistance prm R (candidates.getD 0 defaultFound).name
                (candidates.getD 1 defaultFound).name, 1)]
          else
            [("I couldn\x27t identify two cities in your request, can you rephrase or specify the countries?", 1/2)]
    else
      match moroccanCity with
      | some c => answerMoroccanCityQuery prm R userInput c topK
      | none =>
        match globalCity with
        | some g => [(formatWorldCityResponse prm g, 1)]
        | none =>
          let countryBranch : Option (List (String × ℚ)) :=
            match countryDetected with
            | some country =>
              if pyLower country ≠ "morocco" then
                let countryDisplay :=
                  if !(["usa", "uk"].contains (pyLower country)) then pyTitle country
                  else pyUpper country
                some [("I\x27m specialized in Morocco tourism, so " ++ countryDisplay ++
                    " is outside my expertise. But if you\x27re interested in visiting Morocco instead, I\x27d be happy to help!", 3/10)]
              else none
            | none => none
          match countryBranch with
          | some r => r
          | none =>
            if moroccoMentioned then answerGeneralMoroccoQuery prm R userInput topK
            else answerGenericQuery prm R userInput detectedIntent topK

/-! ### Concrete instances used by witnesses and counterexamples -/

/-- A concrete instantiation of the external collaborators: the identity
Unicode fold and lemmatizer, a constant in-range TF-IDF cosine, a failing
weather lookup, first-element random choice, and simple total stand-ins for
the libm functions (`sin := 0` is odd; `sqrt` fixes `0` and `1`;
`atan2 := 0`). -/
def witnessPrm : ExtPrm :=
  { nfkd := id, lemWord := id, tfidf := fun _ _ => 9/10, weather := fun _ => none,
    choose := fun l => l.headD "", radiansQ := id, sinQ := fun _ => 0, cosQ := id,
    sqrtQ := id, atan2Q := fun _ _ => 0, fmtKm := fun _ => "0.0", fmtCoord := fun _ => "0.00" }

/-- A gazetteer row for Rabat. -/
def rowRabat : GazRow :=
  ⟨"Rabat", "Rabat", "Morocco", some 34, some (-7), "Rabat-Sale-Kenitra", "primary",
   some 572717, "MA", "MAR"⟩

/-- A gazetteer row for Paris. -/
def rowParis : GazRow :=
  ⟨"Paris", "Paris", "France", some 48, some 2, "Ile-de-France", "primary",
   some 11020000, "FR", "FRA"⟩

/-- Engine state whose corpus holds exactly one entry whose normalized
question is `weather in rabat`. -/
def retrC1 : Retriever :=
  { qaList := [⟨"weather in rabat", "Rabat is usually sunny.", "rabat", "ask_weather"⟩],
    globalCities := [("rabat", rowRabat)], countries := ["morocco"] }

/-- Engine state with a single `general_morocco` corpus entry and no
`joke_or_troll`-tagged entry. -/
def retrC2 : Retriever :=
  { qaList := [⟨"Morocco jokes", "Here is a Moroccan joke for you.", "", "general_morocco"⟩],
    globalCities := [("rabat", rowRabat)], countries := ["morocco"] }

/-- Engine state with a single greeting entry whose normalized question is
`hello`. -/
def retrHello : Retriever :=
  { qaList := [⟨"hello", "Hi! Ask me about Morocco.", "", "greeting"⟩],
    globalCities := [("rabat", rowRabat)], countries := ["morocco"] }

/-- Engine state with a two-city gazetteer (Rabat and Paris). -/
def retrGeo : Retriever :=
  { qaList := [⟨"q", "a", "", "general_morocco"⟩],
    globalCities := [("rabat", rowRabat), ("paris", rowParis)],
    countries := ["morocco", "france"] }

/-- Four loader input rows: three spell the same city (same normalized key,
populations 116250, 169176, 169176) and one is a different city. -/
def gazRowsC6 : List GazRow :=
  [⟨"Springfield", "Springfield", "United States", some 39, some (-89), "Illinois", "admin",
    some 116250, "US", "USA"⟩,
   ⟨" springfield ", "Springfield", "United States", some 37, some (-93), "Missouri", "",
    some 169176, "US", "USA"⟩,
   ⟨"SPRINGFIELD", "Springfield", "United States", some 42, some (-72), "Massachusetts", "",
    some 169176, "US", "USA"⟩,
   ⟨"Paris", "Paris", "France", some 48, some 2, "Ile-de-France", "primary",
    some 11020000, "FR", "FRA"⟩]

/-- A character that can appear in the output of `normalize_text`: a
lowercase ASCII letter, an ASCII digit, or a single plain space. -/
def cleanChar (c : Char) : Bool := isLowerAZ c || isDigit09 c || c == ' '

/-- Two adjacent characters are separated correctly when they are not both
whitespace (the shape `re.sub(r'\s+', ' ', ·)` guarantees). -/
def sepOk (a b : Char) : Prop := isPySpace a = true → isPySpace b = true → False

/-- The list is empty or starts with a non-whitespace character. -/
def headNS : List Char → Bool
  | [] => true
  | c :: _ => !isPySpace c

/-! ## Theorems -/

/-- Auxiliary: dropping a satisfying prefix of an all-`p` list leaves
nothing. -/
theorem dropWhile_eq_nil_of_all {p : Char → Bool} :
    ∀ {l : List Char}, (∀ c ∈ l, p c = true) → l.dropWhile p = []
  | [], _ => rfl
  | c :: r, h => by
    simp only [List.dropWhile_cons, h c (List.mem_cons_self c r), if_true]
    exact dropWhile_eq_nil_of_all (fun d hd => h d (List.mem_cons_of_mem c hd))

/-- Auxiliary: `str.strip()` of an all-whitespace string is empty. -/
theorem pyStrip_all_space {s : String} (h : ∀ c ∈ s.data, isPySpace c = true) :
    pyStrip s = "" := by
  unfold pyStrip stripList
  rw [dropWhile_eq_nil_of_all h]
  rfl

/-- C10: for every engine state and every `top_k`, an input that is empty or
all whitespace makes `get_answer` return exactly one element — the fixed
prompt `Please ask a question.` with score `0.0` — and no failure escapes. -/
theorem getAnswer_blank_input_prompt (prm : ExtPrm) (R : Retriever) (userInput : String)
    (topK : Nat) (h : ∀ c ∈ userInput.data, isPySpace c = true) :
    getAnswer prm R userInput topK = [("Please ask a question.", 0)] := by
  unfold getAnswer
  rw [if_pos (pyStrip_all_space h)]

/-- C10 witness: the blank-input prompt at the concrete input `" \t"`. -/
theorem getAnswer_blank_input_prompt_witness :
    getAnswer witnessPrm retrHello " \t" 3 = [("Please ask a question.", 0)] :=
  getAnswer_blank_input_prompt witnessPrm retrHello " \t" 3 (by decide)

/-- C3: once both cities are resolved, a resolved score strictly below the
0.80 confidence threshold makes `get_city_distance` return the
`did you mean <city> (<country>)?` clarification for the first low-scoring
city (the country omitted only when its field is empty), and no distance is
computed: the reply does not depend on any of the external functions —
in particular not on the haversine/formatting pipeline. -/
theorem getCityDistance_lowConfidence_didYouMean (prm prm' : ExtPrm) (fa fb : FoundCity)
    (h : fa.score < cityMatchThreshold ∨ fb.score < cityMatchThreshold) :
    (getCityDistanceFound prm fa fb = didYouMeanReply fa.name fa.country ∨
      getCityDistanceFound prm fa fb = didYouMeanReply fb.name fb.country) ∧
    getCityDistanceFound prm fa fb = getCityDistanceFound prm' fa fb := by
  unfold getCityDistanceFound
  by_cases ha : fa.score < cityMatchThreshold
  · rw [if_pos ha, if_pos ha]
    exact ⟨Or.inl rfl, rfl⟩
  · have hb : fb.score < cityMatchThreshold := h.resolve_left ha
    rw [if_neg ha, if_neg ha, if_pos hb, if_pos hb]
    exact ⟨Or.inr rfl, rfl⟩

/-- C3 witness: a concrete resolved pair whose first score is 0.5. -/
theorem getCityDistance_lowConfidence_didYouMean_witness :
    (getCityDistanceFound witnessPrm ⟨"Fez", 34, -5, "Morocco", 1/2⟩ ⟨"Paris", 48, 2, "France", 1⟩ =
        didYouMeanReply "Fez" "Morocco" ∨
      getCityDistanceFound witnessPrm ⟨"Fez", 34, -5, "Morocco", 1/2⟩ ⟨"Paris", 48, 2, "France", 1⟩ =
        didYouMeanReply "Paris" "France") ∧
    getCityDistanceFound witnessPrm ⟨"Fez", 34, -5, "Morocco", 1/2⟩ ⟨"Paris", 48, 2, "France", 1⟩ =
      getCityDistanceFound witnessPrm ⟨"Fez", 34, -5, "Morocco", 1/2⟩ ⟨"Paris", 48, 2, "France", 1⟩ :=
  getCityDistance_lowConfidence_didYouMean witnessPrm witnessPrm _ _ (Or.inl (by norm_num [cityMatchThreshold]))

/-- Auxiliary: a fold whose step always returns one of its two arguments
stays inside the initial element and the list. -/
theorem foldl_choice_mem {α : Type} (step : α → α → α)
    (hstep : ∀ a b, step a b = a ∨ step a b = b) :
    ∀ (t : List α) (x : α), t.foldl step x ∈ x :: t := by
  intro t
  induction t with
  | nil => intro x; simp
  | cons y t' ih =>
    intro x
    have h := ih (step x y)
    rcases hstep x y with h1 | h1 <;> rw [h1] at h <;>
      simp only [List.foldl_cons] <;> rw [h1]
    · rcases List.mem_cons.1 h with h2 | h2
      · exact List.mem_cons.2 (Or.inl h2)
      · exact List.mem_cons.2 (Or.inr (List.mem_cons.2 (Or.inr h2)))
    · rcases List.mem_cons.1 h with h2 | h2
      · exact List.mem_cons.2 (Or.inr (List.mem_cons.2 (Or.inl h2)))
      · exact List.mem_cons.2 (Or.inr (List.mem_cons.2 (Or.inr h2)))

/-- Auxiliary: the candidate picked by `(score desc, population desc)` is one
of the candidates. -/
theorem pickBestCand_mem {l : List (String × GazRow × ℚ × ℤ)} {c : String × GazRow × ℚ × ℤ}
    (h : pickBestCand l = some c) : c ∈ l := by
  cases l with
  | nil => exact absurd h (by simp [pickBestCand])
  | cons x t =>
    have hc : c = t.foldl
        (fun b c2 =>
          if b.2.2.1 < c2.2.2.1 ∨ (b.2.2.1 = c2.2.2.1 ∧ b.2.2.2 < c2.2.2.2) then c2 else b) x := by
      have h2 := h
      unfold pickBestCand at h2
      exact (Option.some.inj h2).symm
    rw [hc]
    have := foldl_choice_mem
      (fun b c2 =>
        if b.2.2.1 < c2.2.2.1 ∨ (b.2.2.1 = c2.2.2.1 ∧ b.2.2.2 < c2.2.2.2) then c2 else b)
      (fun a b => by dsimp only; split <;> simp) t x
    exact this

/-- Auxiliary: every kept candidate passed the dynamic threshold. -/
theorem fcCandidateOf_score_ge {prm : ExtPrm} {mq : Bool} {query : String} {dynTh : ℚ}
    {p : String × GazRow} {c : String × GazRow × ℚ × ℤ}
    (h : fcCandidateOf prm mq query dynTh p = some c) : dynTh ≤ c.2.2.1 := by
  unfold fcCandidateOf at h
  dsimp only [] at h
  split at h
  all_goals
    split at h
    · rename_i hle
      rw [← Option.some.inj h]
      exact hle
    · exact absurd h (by simp)

/-- Auxiliary: the returned tuple carries the chosen candidate's score. -/
theorem fcResultOf_score {cityName : String} {c : String × GazRow × ℚ × ℤ} {f : FoundCity}
    (h : fcResultOf cityName c = some f) : f.score = c.2.2.1 := by
  unfold fcResultOf at h
  split at h
  · rw [← Option.some.inj h]
  · exact absurd h (by simp)

/-- C4: whenever `find_city_coordinates` returns a result, its confidence
score is at least the 0.80 `CITY_MATCH_THRESHOLD`: the exact branch returns
1.0 and every fuzzy candidate already passed the dynamic threshold (0.90 for
normalized queries of length ≤ 5, else 0.80), so the low-confidence branch of
`get_city_distance` can never fire on this resolver's results. -/
theorem findCityCoordinates_score_ge_threshold (prm : ExtPrm) (R : Retriever)
    (cityName : String) (f : FoundCity)
    (h : findCityCoordinates prm R cityName = some f) :
    cityMatchThreshold ≤ f.score := by
  rw [findCityCoordinates] at h
  split at h
  · exact absurd h (by simp)
  · dsimp only [] at h
    split at h
    · split at h
      · rw [← Option.some.inj h]
        rw [cityMatchThreshold]
        norm_num
      · exact absurd h (by simp)
    · have hth : cityMatchThreshold ≤
          (if (normalizeText prm.nfkd cityName).length ≤ 5 then (9/10 : ℚ)
           else cityMatchThreshold) := by
        split
        · rw [cityMatchThreshold]; norm_num
        · exact le_refl _
      split at h
      · exact absurd h (by simp)
      · rename_i c hc
        have hmem : c ∈ R.globalCities.filterMap
            (fcCandidateOf prm (detectMoroccanCity cityName).isSome
              (normalizeText prm.nfkd cityName)
              (if (normalizeText prm.nfkd cityName).length ≤ 5 then (9/10 : ℚ)
               else cityMatchThreshold)) := by
          split at hc
          · cases Option.some.inj hc
            exact List.mem_of_mem_filter (pickBestCand_mem (by assumption))
          · exact List.mem_of_mem_filter (pickBestCand_mem hc)
        rcases List.mem_filterMap.1 hmem with ⟨p, -, hp⟩
        have hs := fcCandidateOf_score_ge hp
        rw [fcResultOf_score h]
        exact le_trans hth hs

/-- C4 witness: the resolver on the concrete gazetteer and query `Paris`
returns an exact match, whose score 1.0 is at least 0.80. -/
theorem findCityCoordinates_score_ge_threshold_witness :
    cityMatchThreshold ≤ (FoundCity.mk "Paris" 48 2 "France" 1).score :=
  findCityCoordinates_score_ge_threshold witnessPrm retrGeo "Paris" _ (by decide)

/-- Auxiliary: the haversine formula is symmetric in its two coordinate
pairs, given only that the sine it is built on is odd. -/
theorem haversineQ_symm (prm : ExtPrm) (hodd : ∀ x, prm.sinQ (-x) = - prm.sinQ x)
    (a b c d : ℚ) : haversineQ prm a b c d = haversineQ prm c d a b := by
  have h1 : ∀ x y : ℚ, prm.sinQ ((x - y) / 2) ^ 2 = prm.sinQ ((y - x) / 2) ^ 2 := by
    intro x y
    have e : (y - x) / 2 = -((x - y) / 2) := by ring
    rw [e, hodd, neg_sq]
  unfold haversineQ
  dsimp only []
  rw [h1 (prm.radiansQ c) (prm.radiansQ a), h1 (prm.radiansQ d) (prm.radiansQ b),
    mul_comm (prm.cosQ (prm.radiansQ a)) (prm.cosQ (prm.radiansQ c))]

/-- Auxiliary: the haversine distance of a point to itself is zero, given the
documented values of the libm functions at `0` and `1`. -/
theorem haversineQ_self (prm : ExtPrm) (hodd : ∀ x, prm.sinQ (-x) = - prm.sinQ x)
    (hsq0 : prm.sqrtQ 0 = 0) (hsq1 : prm.sqrtQ 1 = 1) (hat : prm.atan2Q 0 1 = 0)
    (x y : ℚ) : haversineQ prm x y x y = 0 := by
  have hsin0 : prm.sinQ 0 = 0 := by
    have h := hodd 0
    rw [neg_zero] at h
    linarith
  unfold haversineQ
  dsimp only []
  rw [show prm.radiansQ x - prm.radiansQ x = 0 by ring,
    show prm.radiansQ y - prm.radiansQ y = 0 by ring]
  rw [show (0 : ℚ) / 2 = 0 by norm_num, hsin0]
  rw [show (0 : ℚ) ^ 2 + prm.cosQ (prm.radiansQ x) * prm.cosQ (prm.radiansQ x) * 0 ^ 2 = 0 by ring]
  rw [hsq0, show (1 : ℚ) - 0 = 1 by norm_num, hsq1, hat]
  ring

/-- C9: when both city names resolve with confident scores, the distance
reply is computed; `cityDistance(A,B)` and `cityDistance(B,A)` embed the very
same formatted distance string `s`, differing only in the order of the two
city names (and the haversine formula itself is symmetric, and yields `0` for
identical coordinates — first conjunct). -/
theorem getCityDistance_symm (prm : ExtPrm) (R : Retriever) (A B : String)
    (fa fb : FoundCity)
    (hodd : ∀ x, prm.sinQ (-x) = - prm.sinQ x)
    (hsq0 : prm.sqrtQ 0 = 0) (hsq1 : prm.sqrtQ 1 = 1) (hat : prm.atan2Q 0 1 = 0)
    (hA : A ≠ "") (hB : B ≠ "")
    (hfA : findCityCoordinates prm R A = some fa)
    (hfB : findCityCoordinates prm R B = some fb)
    (hsa : cityMatchThreshold ≤ fa.score) (hsb : cityMatchThreshold ≤ fb.score) :
    (∀ x y, haversineQ prm x y x y = 0) ∧
    ∃ s, getCityDistance prm R A B =
          composeDistanceReply fa.name fb.name
            (foundIsMorocco prm fa && foundIsMorocco prm fb) s ∧
        getCityDistance prm R B A =
          composeDistanceReply fb.name fa.name
            (foundIsMorocco prm fb && foundIsMorocco prm fa) s := by
  refine ⟨haversineQ_self prm hodd hsq0 hsq1 hat, ?_⟩
  refine ⟨prm.fmtKm (haversineQ prm fa.lat fa.lng fb.lat fb.lng), ?_, ?_⟩
  · rw [getCityDistance, if_neg (by push_neg; exact ⟨hA, hB⟩), hfA, hfB]
    show getCityDistanceFound prm fa fb = _
    unfold getCityDistanceFound
    rw [if_neg (not_lt.2 hsa), if_neg (not_lt.2 hsb)]
  · rw [getCityDistance, if_neg (by push_neg; exact ⟨hB, hA⟩), hfB, hfA]
    show getCityDistanceFound prm fb fa = _
    unfold getCityDistanceFound
    rw [if_neg (not_lt.2 hsb), if_neg (not_lt.2 hsa)]
    dsimp only []
    rw [haversineQ_symm prm hodd fb.lat fb.lng fa.lat fa.lng]

/-- C9 witness: Rabat and Paris on the concrete gazetteer, with the concrete
libm stand-ins of `witnessPrm`. -/
theorem getCityDistance_symm_witness :
    (∀ x y, haversineQ witnessPrm x y x y = 0) ∧
    ∃ s, getCityDistance witnessPrm retrGeo "Rabat" "Paris" =
          composeDistanceReply "Rabat" "Paris"
            (foundIsMorocco witnessPrm ⟨"Rabat", 34, -7, "Morocco", 1⟩ &&
              foundIsMorocco witnessPrm ⟨"Paris", 48, 2, "France", 1⟩) s ∧
        getCityDistance witnessPrm retrGeo "Paris" "Rabat" =
          composeDistanceReply "Paris" "Rabat"
            (foundIsMorocco witnessPrm ⟨"Paris", 48, 2, "France", 1⟩ &&
              foundIsMorocco witnessPrm ⟨"Rabat", 34, -7, "Morocco", 1⟩) s :=
  getCityDistance_symm witnessPrm retrGeo "Rabat" "Paris"
    ⟨"Rabat", 34, -7, "Morocco", 1⟩ ⟨"Paris", 48, 2, "France", 1⟩
    (fun x => by simp [witnessPrm]) (by rfl) (by rfl) (by rfl)
    (by decide) (by decide) (by decide) (by decide)
    (by rw [cityMatchThreshold]; norm_num) (by rw [cityMatchThreshold]; norm_num)

/-- Auxiliary: dict lookup through one stored pair. -/
theorem lookupGaz_cons (k0 : String) (v0 : GazRow) (t : List (String × GazRow)) (key : String) :
    lookupGaz ((k0, v0) :: t) key = if k0 == key then some v0 else lookupGaz t key := by
  rw [lookupGaz]
  by_cases h : (k0 == key) = true
  · rw [@List.find?_cons_of_pos (String × GazRow) (fun p => p.1 == key) (k0, v0) t h, if_pos h]
    rfl
  · rw [@List.find?_cons_of_neg (String × GazRow) (fun p => p.1 == key) (k0, v0) t h, if_neg h]
    rfl

/-- Auxiliary: looking up the key just written. -/
theorem lookupGaz_upsert_eq (k : String) (v : GazRow) :
    ∀ m, lookupGaz (upsertGaz k v m) k = some v := by
  intro m
  induction m with
  | nil => rw [upsertGaz, lookupGaz_cons, if_pos (by simp)]
  | cons p t ih =>
    cases p with
    | mk k0 v0 =>
      by_cases hk : k0 = k
      · subst hk
        rw [upsertGaz, if_pos rfl, lookupGaz_cons, if_pos (by simp)]
      · rw [upsertGaz, if_neg hk, lookupGaz_cons, if_neg (by simpa using hk)]
        exact ih

/-- Auxiliary: writing one key leaves every other key's lookup unchanged. -/
theorem lookupGaz_upsert_ne (k key : String) (v : GazRow) (hk : key ≠ k) :
    ∀ m, lookupGaz (upsertGaz k v m) key = lookupGaz m key := by
  intro m
  have hkk : ¬ ((k == key) = true) := by
    simp only [beq_iff_eq]
    exact fun h => hk h.symm
  induction m with
  | nil => rw [upsertGaz, lookupGaz_cons, if_neg hkk]
  | cons p t ih =>
    cases p with
    | mk k0 v0 =>
      by_cases h0 : k0 = k
      · subst h0
        rw [upsertGaz, if_pos rfl, lookupGaz_cons, if_neg hkk, lookupGaz_cons, if_neg hkk]
      · rw [upsertGaz, if_neg h0, lookupGaz_cons, lookupGaz_cons]
        by_cases hbe : (k0 == key) = true
        · rw [if_pos hbe, if_pos hbe]
        · rw [if_neg hbe, if_neg hbe]
          exact ih

/-- Auxiliary: one loader step seen through a fixed key's lookup. -/
theorem lookupGaz_loadStep (m : List (String × GazRow)) (x : GazRow) (key : String) :
    lookupGaz (loadStep m x) key =
      if gazKeyOf x == some key then pickStep (lookupGaz m key) x
      else lookupGaz m key := by
  rw [loadStep]
  cases hk : gazKeyOf x with
  | none =>
    dsimp only []
    rw [if_neg (by simp)]
  | some k2 =>
    dsimp only []
    by_cases hkey : k2 = key
    · subst hkey
      rw [if_pos (by simp)]
      cases hl : lookupGaz m k2 with
      | none =>
        dsimp only [pickStep]
        exact lookupGaz_upsert_eq k2 (storedRowOf x) m
      | some old =>
        dsimp only [pickStep]
        by_cases hc : popOf x > popOf old
        · rw [if_pos hc, if_pos hc]
          exact lookupGaz_upsert_eq k2 (storedRowOf x) m
        · rw [if_neg hc, if_neg hc]
          exact hl
    · rw [if_neg (by simpa using hkey)]
      cases hl : lookupGaz m k2 with
      | none =>
        dsimp only []
        exact lookupGaz_upsert_ne k2 key (storedRowOf x) (fun h => hkey h.symm) m
      | some old =>
        dsimp only []
        by_cases hc : popOf x > popOf old
        · rw [if_pos hc]
          exact lookupGaz_upsert_ne k2 key (storedRowOf x) (fun h => hkey h.symm) m
        · rw [if_neg hc]

/-- Auxiliary: the loader's fold, restricted to the rows of one key, is the
`pickStep` fold over exactly those rows. -/
theorem load_aux : ∀ (rows : List GazRow) (m : List (String × GazRow)) (key : String),
    lookupGaz (rows.foldl loadStep m) key =
      (rows.filter (fun x => gazKeyOf x == some key)).foldl pickStep (lookupGaz m key)
  | [], _, _ => rfl
  | x :: rest, m, key => by
    rw [List.foldl_cons, load_aux rest (loadStep m x) key, lookupGaz_loadStep m x key]
    by_cases hk : (gazKeyOf x == some key) = true
    · rw [if_pos hk, @List.filter_cons_of_pos GazRow (fun y => gazKeyOf y == some key) x rest hk, List.foldl_cons]
    · rw [if_neg hk, @List.filter_cons_of_neg GazRow (fun y => gazKeyOf y == some key) x rest (by simpa using hk)]

/-- Auxiliary: `popOf` ignores the loader's city-name stripping. -/
theorem popOf_storedRowOf (x : GazRow) : popOf (storedRowOf x) = popOf x := rfl

/-- Auxiliary: what the `pickStep` fold started at a stored row returns —
either the start row dominates, or some strictly-more-populous later row
`r₀` wins, every row before it strictly below it and every row after it no
larger. -/
theorem pickStep_fold_some : ∀ (t : List GazRow) (b : GazRow) (r : GazRow),
    t.foldl pickStep (some (storedRowOf b)) = some r →
      (r = storedRowOf b ∧ ∀ x ∈ t, popOf x ≤ popOf b) ∨
      (∃ pre r₀ post, t = pre ++ r₀ :: post ∧ r = storedRowOf r₀ ∧ popOf b < popOf r₀ ∧
        (∀ x ∈ pre, popOf x < popOf r₀) ∧ (∀ x ∈ post, popOf x ≤ popOf r₀))
  | [], b, r, h => Or.inl ⟨(Option.some.inj h).symm, by simp⟩
  | x :: t', b, r, h => by
    rw [List.foldl_cons] at h
    dsimp only [pickStep] at h
    by_cases hgt : popOf x > popOf (storedRowOf b)
    · rw [if_pos hgt] at h
      rw [popOf_storedRowOf] at hgt
      rcases pickStep_fold_some t' x r h with ⟨hr, hall⟩ | ⟨pre, r₀, post, ht, hr, hbx, hpre, hpost⟩
      · exact Or.inr ⟨[], x, t', by simp, hr, hgt, by simp, hall⟩
      · refine Or.inr ⟨x :: pre, r₀, post, by rw [ht]; rfl, hr, lt_trans hgt hbx, ?_, hpost⟩
        intro y hy
        rcases List.mem_cons.1 hy with rfl | hy
        · exact hbx
        · exact hpre y hy
    · rw [if_neg hgt] at h
      rw [popOf_storedRowOf] at hgt
      push_neg at hgt
      rcases pickStep_fold_some t' b r h with ⟨hr, hall⟩ | ⟨pre, r₀, post, ht, hr, hbx, hpre, hpost⟩
      · refine Or.inl ⟨hr, ?_⟩
        intro y hy
        rcases List.mem_cons.1 hy with rfl | hy
        · exact hgt
        · exact hall y hy
      · refine Or.inr ⟨x :: pre, r₀, post, by rw [ht]; rfl, hr, hbx, ?_, hpost⟩
        intro y hy
        rcases List.mem_cons.1 hy with rfl | hy
        · exact lt_of_le_of_lt hgt hbx
        · exact hpre y hy

/-- C6: among all loader rows whose city name normalizes to a given key, the
mapping built by `_load_global_cities` keeps exactly the one with the largest
population, and on population ties the first-seen one: the kept row `r₀`
strictly exceeds every earlier same-key row and is not exceeded by any later
one. -/
theorem loadGlobalCities_keeps_max_pop (rows : List GazRow) (key : String) (r : GazRow)
    (h : lookupGaz (loadGlobalCities rows) key = some r) :
    ∃ pre r₀ post, rows.filter (fun x => gazKeyOf x == some key) = pre ++ r₀ :: post ∧
      r = storedRowOf r₀ ∧ (∀ x ∈ pre, popOf x < popOf r₀) ∧
      (∀ x ∈ post, popOf x ≤ popOf r₀) := by
  rw [loadGlobalCities, load_aux rows [] key] at h
  cases hm : rows.filter (fun x => gazKeyOf x == some key) with
  | nil => rw [hm] at h; exact absurd h (by simp [lookupGaz])
  | cons x t =>
    rw [hm] at h
    rw [List.foldl_cons] at h
    have h' : t.foldl pickStep (some (storedRowOf x)) = some r := h
    rcases pickStep_fold_some t x r h' with ⟨hr, hall⟩ | ⟨pre, r₀, post, ht, hr, hbx, hpre, hpost⟩
    · exact ⟨[], x, t, rfl, hr, by simp, hall⟩
    · refine ⟨x :: pre, r₀, post, by rw [ht]; rfl, hr, ?_, hpost⟩
      intro y hy
      rcases List.mem_cons.1 hy with rfl | hy
      · exact hbx
      · exact hpre y hy

/-- C6 witness: three same-key rows with populations 116250, 169176, 169176 —
the second (first of the maximal ones) is kept. -/
theorem loadGlobalCities_keeps_max_pop_witness :
    ∃ pre r₀ post,
      gazRowsC6.filter (fun x => gazKeyOf x == some "springfield") = pre ++ r₀ :: post ∧
      (⟨"springfield", "Springfield", "United States", some 37, some (-93), "Missouri", "",
        some 169176, "US", "USA"⟩ : GazRow) = storedRowOf r₀ ∧
      (∀ x ∈ pre, popOf x < popOf r₀) ∧ (∀ x ∈ post, popOf x ≤ popOf r₀) :=
  loadGlobalCities_keeps_max_pop gazRowsC6 "springfield" _ (by decide)

/-- Auxiliary: a constant-valued conditional search is its `any`. -/
theorem findSome?_const_if {α β : Type} (v : β) (c : α → Bool) :
    ∀ l : List α, l.findSome? (fun x => if c x then some v else none) =
      if l.any c then some v else none := by
  intro l
  induction l with
  | nil => rfl
  | cons x t ih =>
    rw [List.findSome?_cons]
    by_cases h : c x = true
    · simp [h]
    · simp only [Bool.not_eq_true] at h
      simp [h, ih]

/-- Auxiliary: the per-keyword two-step test (plain forms, then expanded
forms) hits exactly when either form hits. -/
theorem double_if_or {β : Type} (v : β) (a b : Bool) :
    (if a then some v else if b then some v else none) =
      (if (a || b) then some v else none) := by
  cases a <;> cases b <;> simp

/-- Auxiliary: the classifier's loop over the remaining categories equals
spec §4.6's step 5 (`declaredOrderHit`). -/
theorem declaredOrder_eq (prm : ExtPrm) (q ql qe qel : String) :
    intentKeywords.findSome? (fun p =>
      if p.1 ∈ ["joke_or_troll", "ask_weather", "ask_distance"] then none
      else p.2.findSome? (fun kw =>
        if wwKwHit prm q ql kw then some p.1
        else if wwKwHit prm qe qel kw then some p.1
        else none)) = declaredOrderHit prm q ql qe qel := by
  rw [declaredOrderHit]
  induction intentKeywords with
  | nil => rfl
  | cons p t ih =>
    rw [List.findSome?_cons]
    by_cases hskip : p.1 ∈ ["joke_or_troll", "ask_weather", "ask_distance"]
    · rw [if_pos hskip]
      rw [List.filter_cons_of_neg (by simp only [decide_eq_true_eq]; exact not_not_intro hskip)]
      exact ih
    · rw [if_neg hskip]
      have inner : p.2.findSome? (fun kw =>
          if wwKwHit prm q ql kw then some p.1
          else if wwKwHit prm qe qel kw then some p.1
          else none) =
          if p.2.any (fun kw => wwKwHit prm q ql kw || wwKwHit prm qe qel kw) then some p.1
          else none := by
        rw [show (fun kw =>
            if wwKwHit prm q ql kw then some p.1
            else if wwKwHit prm qe qel kw then some p.1
            else none) = (fun kw =>
            if (wwKwHit prm q ql kw || wwKwHit prm qe qel kw) then some p.1 else none) from
          funext fun kw => double_if_or p.1 _ _]
        exact findSome?_const_if p.1 _ p.2
      rw [inner, List.filter_cons_of_pos (by simp only [decide_eq_true_eq]; exact hskip)]
      by_cases hany : p.2.any (fun kw => wwKwHit prm q ql kw || wwKwHit prm qe qel kw) = true
      · rw [if_pos hany,
          @List.find?_cons_of_pos (String × List String)
            (fun r => r.2.any (fun kw => wwKwHit prm q ql kw || wwKwHit prm qe qel kw)) p
            (List.filter (fun r => decide (r.1 ∉ ["joke_or_troll", "ask_weather", "ask_distance"])) t)
            hany]
        rfl
      · rw [if_neg hany,
          @List.find?_cons_of_neg (String × List String)
            (fun r => r.2.any (fun kw => wwKwHit prm q ql kw || wwKwHit prm qe qel kw)) p
            (List.filter (fun r => decide (r.1 ∉ ["joke_or_troll", "ask_weather", "ask_distance"])) t)
            hany]
        exact ih

/-- Auxiliary: whatever spec §4.6 step 5 returns is one of the categories
outside the three promoted ones. -/
theorem declaredOrderHit_not_promoted {prm : ExtPrm} {q ql qe qel : String} {c : String}
    (h : declaredOrderHit prm q ql qe qel = some c) :
    c ∉ (["joke_or_troll", "ask_weather", "ask_distance"] : List String) := by
  rw [declaredOrderHit] at h
  rcases Option.map_eq_some'.1 h with ⟨p, hp, hc⟩
  have hmem := List.mem_filter.1 (List.mem_of_find?_eq_some hp)
  rw [← hc]
  simpa using hmem.2

/-- Auxiliary: the classifier equals spec §4.6's fixed priority cascade
(shared by the C7 and C8 theorems). -/
theorem detectIntent_cascade (prm : ExtPrm) (s : String) :
    detectIntent prm s = intentPrioritySpec prm s := by
  rw [detectIntent, intentPrioritySpec]
  cases hj : (kwsOf "joke_or_troll").find? (jokeKwHit prm (normalizeText prm.nfkd s)
      (lemmatizeText prm.lemWord (normalizeText prm.nfkd s))) with
  | some kw =>
    have ht : trollTriggerHits prm (normalizeText prm.nfkd s)
        (lemmatizeText prm.lemWord (normalizeText prm.nfkd s)) = true := by
      rw [trollTriggerHits]
      exact List.any_eq_true.2 ⟨kw, List.mem_of_find?_eq_some hj, List.find?_some hj⟩
    rw [if_pos ht]
  | none =>
    have ht : ¬ (trollTriggerHits prm (normalizeText prm.nfkd s)
        (lemmatizeText prm.lemWord (normalizeText prm.nfkd s)) = true) := by
      rw [trollTriggerHits]
      simp only [List.any_eq_true, not_exists, not_and]
      intro kw hkw
      have := List.find?_eq_none.1 hj kw hkw
      simpa using this
    rw [if_neg ht]
    cases hd : (kwsOf "ask_distance").find? (wwKwHit prm (normalizeText prm.nfkd s)
        (lemmatizeText prm.lemWord (normalizeText prm.nfkd s))) with
    | some kw =>
      have hnow : distanceTriggerHits prm (normalizeText prm.nfkd s)
          (lemmatizeText prm.lemWord (normalizeText prm.nfkd s)) = true := by
        rw [distanceTriggerHits]
        exact List.any_eq_true.2 ⟨kw, List.mem_of_find?_eq_some hd, List.find?_some hd⟩
      rw [if_pos hnow]
    | none =>
      have hnod : ¬ (distanceTriggerHits prm (normalizeText prm.nfkd s)
          (lemmatizeText prm.lemWord (normalizeText prm.nfkd s)) = true) := by
        rw [distanceTriggerHits]
        simp only [List.any_eq_true, not_exists, not_and]
        intro kw hkw
        have := List.find?_eq_none.1 hd kw hkw
        simpa using this
      rw [if_neg hnod]
      cases hw : (kwsOf "ask_weather").find? (wwKwHit prm (normalizeText prm.nfkd s)
          (lemmatizeText prm.lemWord (normalizeText prm.nfkd s))) with
      | some kw =>
        have hnow : weatherTriggerHits prm (normalizeText prm.nfkd s)
            (lemmatizeText prm.lemWord (normalizeText prm.nfkd s)) = true := by
          rw [weatherTriggerHits]
          exact List.any_eq_true.2 ⟨kw, List.mem_of_find?_eq_some hw, List.find?_some hw⟩
        rw [if_pos hnow]
      | none =>
        have hnow : ¬ (weatherTriggerHits prm (normalizeText prm.nfkd s)
            (lemmatizeText prm.lemWord (normalizeText prm.nfkd s)) = true) := by
          rw [weatherTriggerHits]
          simp only [List.any_eq_true, not_exists, not_and]
          intro kw hkw
          have := List.find?_eq_none.1 hw kw hkw
          simpa using this
        rw [if_neg hnow]
        exact declaredOrder_eq prm _ _ _ _

/-- C7: the intent classifier implements the fixed priority
`troll > distance > weather > declaration order`: it returns
`joke_or_troll` whenever any troll trigger hits, else `ask_distance`
whenever any distance trigger hits (even when weather or later-declared
triggers also hit), else `ask_weather` likewise, else the first remaining
category in declaration order with a hit. -/
theorem detectIntent_priority (prm : ExtPrm) (s : String) :
    detectIntent prm s = intentPrioritySpec prm s :=
  detectIntent_cascade prm s

/-- C8 amended theorem: the classifier returns `joke_or_troll` exactly when
some `joke_or_troll` trigger hits under the source's test — *substring*
containment of the normalized trigger in the normalized text, or substring
containment of its lemma form in the lemmatized text, or fuzzy similarity
above 0.8 (whole-word matching is not required for this category). -/
theorem detectIntent_joke_iff_substring_hit (prm : ExtPrm) (s : String) :
    detectIntent prm s = some "joke_or_troll" ↔
      (kwsOf "joke_or_troll").any (jokeKwHit prm (normalizeText prm.nfkd s)
        (lemmatizeText prm.lemWord (normalizeText prm.nfkd s))) = true := by
  rw [detectIntent_cascade, intentPrioritySpec]
  constructor
  · intro h
    by_contra hno
    rw [trollTriggerHits] at h
    rw [if_neg (by simpa using fun hx => hno hx)] at h
    split at h
    · exact absurd (Option.some.inj h) (by decide)
    · split at h
      · exact absurd (Option.some.inj h) (by decide)
      · exact absurd (by decide : ("joke_or_troll" : String) ∈
          ["joke_or_troll", "ask_weather", "ask_distance"]) (declaredOrderHit_not_promoted h)
  · intro h
    rw [if_pos (by rw [trollTriggerHits]; exact h)]

unseal Rat.mul Rat.inv Rat.add Rat.sub in
/-- C8 counterexample: on the input `jokers`, the trigger `joke` occurs only
as a proper substring of a longer word — no trigger passes the claim's
whole-word/lemma/fuzzy-above-0.8 test — yet the classifier does return
`joke_or_troll`, because the source tests plain substring containment. -/
theorem detectIntent_joke_substring_counterexample :
    substrB "joke" (normalizeText witnessPrm.nfkd "jokers") = true ∧
    wholeWord "joke" (normalizeText witnessPrm.nfkd "jokers") = false ∧
    (kwsOf "joke_or_troll").all (fun kw =>
      !jokeKwHitClaimC8 witnessPrm (normalizeText witnessPrm.nfkd "jokers")
        (lemmatizeText witnessPrm.lemWord (normalizeText witnessPrm.nfkd "jokers")) kw) = true ∧
    detectIntent witnessPrm "jokers" = some "joke_or_troll" := by
  refine ⟨by decide, by decide, by decide, by decide⟩

/-- Auxiliary: `Char.toNat` determines the character. -/
theorem char_eq_of_toNat {c d : Char} (h : c.toNat = d.toNat) : c = d :=
  Char.ext (UInt32.ext h)

/-- Auxiliary: `str.lower()` fixes every character outside `A`-`Z`. -/
theorem toLower_fix {c : Char} (h : 90 < c.toNat ∨ c.toNat < 65) : c.toLower = c := by
  rw [Char.toLower]
  exact if_neg (by omega)

/-- Auxiliary: code-point bounds of a lowercase ASCII letter. -/
theorem isLowerAZ_toNat {c : Char} (h : isLowerAZ c = true) :
    97 ≤ c.toNat ∧ c.toNat ≤ 122 := by
  simp only [isLowerAZ, Bool.and_eq_true, decide_eq_true_eq] at h
  exact ⟨h.1, h.2⟩

/-- Auxiliary: code-point bounds of an ASCII digit. -/
theorem isDigit09_toNat {c : Char} (h : isDigit09 c = true) :
    48 ≤ c.toNat ∧ c.toNat ≤ 57 := by
  simp only [isDigit09, Bool.and_eq_true, decide_eq_true_eq] at h
  exact ⟨h.1, h.2⟩

/-- Auxiliary: the code points Python counts as whitespace. -/
theorem isPySpace_toNat {c : Char} (h : isPySpace c = true) :
    c.toNat = 32 ∨ (9 ≤ c.toNat ∧ c.toNat ≤ 13) ∨ (28 ≤ c.toNat ∧ c.toNat ≤ 31) ∨
    c.toNat = 133 ∨ c.toNat = 160 ∨ c.toNat = 5760 ∨
    (8192 ≤ c.toNat ∧ c.toNat ≤ 8202) ∨ c.toNat = 8232 ∨ c.toNat = 8233 ∨
    c.toNat = 8239 ∨ c.toNat = 8287 ∨ c.toNat = 12288 := by
  simp only [isPySpace, Bool.or_eq_true, Bool.and_eq_true, beq_iff_eq,
    decide_eq_true_eq] at h
  omega

/-- Auxiliary: clean characters are untouched by `str.lower()`. -/
theorem clean_toLower {c : Char} (h : cleanChar c = true) : c.toLower = c := by
  simp only [cleanChar, Bool.or_eq_true, beq_iff_eq] at h
  rcases h with (h | h) | h
  · exact toLower_fix (Or.inl (by have := isLowerAZ_toNat h; omega))
  · exact toLower_fix (Or.inr (by have := isDigit09_toNat h; omega))
  · subst h; decide

/-- Auxiliary: clean characters are plain ASCII. -/
theorem clean_lt128 {c : Char} (h : cleanChar c = true) : c.toNat < 128 := by
  simp only [cleanChar, Bool.or_eq_true, beq_iff_eq] at h
  rcases h with (h | h) | h
  · exact lt_of_le_of_lt (isLowerAZ_toNat h).2 (by omega)
  · exact lt_of_le_of_lt (isDigit09_toNat h).2 (by omega)
  · subst h; decide

/-- Auxiliary: a clean character is never an apostrophe. -/
theorem clean_ne_apos {c : Char} (h : cleanChar c = true) : c ≠ '\x27' := by
  intro he
  subst he
  simp only [cleanChar, Bool.or_eq_true, beq_iff_eq] at h
  rcases h with (h | h) | h
  · have h1 := isLowerAZ_toNat h
    have h2 : Char.toNat '\x27' = 39 := by decide
    omega
  · have h1 := isDigit09_toNat h
    have h2 : Char.toNat '\x27' = 39 := by decide
    omega
  · exact absurd h (by decide)

/-- Auxiliary: clean characters survive the `[^a-z0-9\s]` filter. -/
theorem clean_allowed {c : Char} (h : cleanChar c = true) :
    (isLowerAZ c || isDigit09 c || isPySpace c) = true := by
  simp only [cleanChar, Bool.or_eq_true, beq_iff_eq] at h
  simp only [Bool.or_eq_true]
  rcases h with (h | h) | h
  · exact Or.inl (Or.inl h)
  · exact Or.inl (Or.inr h)
  · subst h; exact Or.inr (by decide)

/-- Auxiliary: the only whitespace among clean characters is the plain
space. -/
theorem clean_space_eq {c : Char} (h : cleanChar c = true)
    (hs : isPySpace c = true) : c = ' ' := by
  simp only [cleanChar, Bool.or_eq_true, beq_iff_eq] at h
  rcases h with (h | h) | h
  · have h1 := isLowerAZ_toNat h
    have h2 := isPySpace_toNat hs
    omega
  · have h1 := isDigit09_toNat h
    have h2 := isPySpace_toNat hs
    omega
  · exact h

/-- Auxiliary: `str.lower()` is the identity on already-clean strings. -/
theorem pyLower_id_of_clean {s : String} (h : ∀ c ∈ s.data, cleanChar c = true) :
    pyLower s = s := by
  rw [pyLower]
  have hm : s.data.map Char.toLower = s.data.map id :=
    List.map_congr_left (fun c hc => clean_toLower (h c hc))
  rw [hm, List.map_id]

/-- Auxiliary: stepping the possessive scrub past a non-apostrophe head. -/
theorem removePoss_cons_ne {c : Char} {r : List Char} (hc : c ≠ '\x27') :
    removePoss (c :: r) = c :: removePoss r := by
  rw [removePoss.eq_def]
  split
  · rename_i heq
    exact absurd heq (List.cons_ne_nil c r)
  · rename_i x rest heq
    exact absurd (List.cons.inj heq).1 hc
  · rename_i x c2 r2 hno heq
    obtain ⟨h1, h2⟩ := List.cons.inj heq
    rw [← h1, ← h2]

/-- Auxiliary: the possessive scrub is the identity on apostrophe-free
lists. -/
theorem removePoss_no_apos :
    ∀ (l : List Char), (∀ c ∈ l, c ≠ '\x27') → removePoss l = l := by
  intro l
  induction l with
  | nil => intro _; rfl
  | cons c r ih =>
    intro h
    rw [removePoss_cons_ne (h c (List.mem_cons_self c r))]
    rw [ih (fun d hd => h d (List.mem_cons_of_mem c hd))]

/-- Auxiliary: a non-whitespace head may be prepended to any correctly
separated list. -/
theorem chain_cons_of_left {c : Char} {L : List Char} (hc : isPySpace c = false)
    (hL : List.Chain' sepOk L) : List.Chain' sepOk (c :: L) := by
  cases L with
  | nil => exact List.chain'_singleton c
  | cons d t =>
    exact List.chain'_cons.2 ⟨fun hs _ => by rw [hc] at hs; exact Bool.noConfusion hs, hL⟩

/-- Auxiliary: any head may be prepended when the list starts with a
non-whitespace character. -/
theorem chain_cons_of_headNS {c : Char} {L : List Char} (hL1 : headNS L = true)
    (hL2 : List.Chain' sepOk L) : List.Chain' sepOk (c :: L) := by
  cases L with
  | nil => exact List.chain'_singleton c
  | cons d t =>
    refine List.chain'_cons.2 ⟨fun _ hd => ?_, hL2⟩
    rw [headNS, hd] at hL1
    exact Bool.noConfusion hL1

/-- Auxiliary: every character of the whitespace-collapsed list is a plain
space or a non-whitespace character of the input. -/
theorem mem_collapseAux :
    ∀ (l : List Char) (b : Bool) (c : Char), c ∈ collapseAux b l →
      c = ' ' ∨ (c ∈ l ∧ isPySpace c = false) := by
  intro l
  induction l with
  | nil => intro b c hc; exact absurd hc (List.not_mem_nil c)
  | cons d r ih =>
    intro b c hc
    rw [collapseAux] at hc
    by_cases hsp : isPySpace d = true
    · rw [if_pos hsp] at hc
      cases b with
      | true =>
        rcases ih true c hc with h | ⟨h1, h2⟩
        · exact Or.inl h
        · exact Or.inr ⟨List.mem_cons_of_mem d h1, h2⟩
      | false =>
        rcases List.mem_cons.1 hc with h | h
        · exact Or.inl h
        · rcases ih true c h with h | ⟨h1, h2⟩
          · exact Or.inl h
          · exact Or.inr ⟨List.mem_cons_of_mem d h1, h2⟩
    · rw [if_neg hsp] at hc
      rcases List.mem_cons.1 hc with h | h
      · subst h
        exact Or.inr ⟨List.mem_cons_self c r, Bool.not_eq_true _ ▸ hsp⟩
      · rcases ih false c h with h | ⟨h1, h2⟩
        · exact Or.inl h
        · exact Or.inr ⟨List.mem_cons_of_mem d h1, h2⟩

/-- Auxiliary: the whitespace-collapsed list is correctly separated, and in
the absorbing state it starts with a non-whitespace character. -/
theorem collapseAux_chain :
    ∀ l : List Char, List.Chain' sepOk (collapseAux false l) ∧
      headNS (collapseAux true l) = true ∧ List.Chain' sepOk (collapseAux true l) := by
  intro l
  induction l with
  | nil => exact ⟨List.chain'_nil, rfl, List.chain'_nil⟩
  | cons c r ih =>
    obtain ⟨ihf, ihh, iht⟩ := ih
    by_cases hsp : isPySpace c = true
    · refine ⟨?_, ?_, ?_⟩
      · rw [collapseAux, if_pos hsp]
        exact chain_cons_of_headNS ihh iht
      · rw [collapseAux, if_pos hsp]
        exact ihh
      · rw [collapseAux, if_pos hsp]
        exact iht
    · have hsp2 : isPySpace c = false := Bool.not_eq_true _ ▸ hsp
      refine ⟨?_, ?_, ?_⟩
      · rw [collapseAux, if_neg hsp]
        exact chain_cons_of_left hsp2 ihf
      · rw [collapseAux, if_neg hsp, headNS, hsp2]
        rfl
      · rw [collapseAux, if_neg hsp]
        exact chain_cons_of_left hsp2 ihf

/-- Auxiliary: whitespace collapsing is the identity on a correctly
separated list whose only whitespace is the plain space; in the absorbing
state this additionally needs a non-whitespace head. -/
theorem collapseAux_id :
    ∀ l : List Char, (∀ c ∈ l, isPySpace c = true → c = ' ') →
      List.Chain' sepOk l →
      (collapseAux false l = l ∧ (headNS l = true → collapseAux true l = l)) := by
  intro l
  induction l with
  | nil => intro _ _; exact ⟨rfl, fun _ => rfl⟩
  | cons c r ih =>
    intro h hch
    have hch2 := (List.chain'_cons'.1 hch).2
    have hpair := (List.chain'_cons'.1 hch).1
    have ihr := ih (fun d hd hs => h d (List.mem_cons_of_mem c hd) hs) hch2
    by_cases hsp : isPySpace c = true
    · have hc : c = ' ' := h c (List.mem_cons_self c r) hsp
      have hhr : headNS r = true := by
        cases r with
        | nil => rfl
        | cons d t =>
          rw [headNS]
          have := hpair d rfl
          by_cases hd : isPySpace d = true
          · exact absurd (this hsp hd) (fun x => x)
          · have hd2 : isPySpace d = false := by simpa using hd
            rw [hd2]
            rfl
      constructor
      · rw [collapseAux, if_pos hsp, if_neg (fun hq => Bool.noConfusion hq), ihr.2 hhr, hc]
      · intro hh
        rw [headNS, hsp] at hh
        exact Bool.noConfusion hh
    · constructor
      · rw [collapseAux, if_neg hsp, ihr.1]
      · intro _
        rw [collapseAux, if_neg hsp, ihr.1]

/-- Auxiliary: dropping leading whitespace leaves a non-whitespace head. -/
theorem headNS_dropWhile :
    ∀ l : List Char, headNS (l.dropWhile isPySpace) = true := by
  intro l
  induction l with
  | nil => rfl
  | cons c r ih =>
    rw [List.dropWhile_cons]
    by_cases hsp : isPySpace c = true
    · rw [if_pos hsp]; exact ih
    · have h2 : isPySpace c = false := by simpa using hsp
      rw [if_neg hsp, headNS, h2]
      rfl

/-- Auxiliary: dropping leading whitespace from a list with a
non-whitespace head changes nothing. -/
theorem dropWhile_eq_self_of_headNS {l : List Char} (h : headNS l = true) :
    l.dropWhile isPySpace = l := by
  cases l with
  | nil => rfl
  | cons c r =>
    rw [headNS] at h
    have h2 : isPySpace c = false := by simpa using h
    rw [List.dropWhile_cons, if_neg (by simp [h2])]

/-- Auxiliary: `str.strip()` yields a contiguous infix of its input. -/
theorem stripList_contiguous (l : List Char) : stripList l <:+: l := by
  rw [stripList]
  have h1 : l.dropWhile isPySpace <:+ l := List.dropWhile_suffix isPySpace
  have h2 : (l.dropWhile isPySpace).reverse.dropWhile isPySpace <:+
      (l.dropWhile isPySpace).reverse := List.dropWhile_suffix isPySpace
  have h3 : ((l.dropWhile isPySpace).reverse.dropWhile isPySpace).reverse <+:
      l.dropWhile isPySpace := by
    apply List.reverse_suffix.1
    rw [List.reverse_reverse]
    exact h2
  exact h3.isInfix.trans h1.isInfix

/-- Auxiliary: a prefix of a list with a non-whitespace head also has a
non-whitespace head. -/
theorem headNS_of_prefix {L M : List Char} (h : L <+: M) (hM : headNS M = true) :
    headNS L = true := by
  cases L with
  | nil => rfl
  | cons c t =>
    obtain ⟨u, hu⟩ := h
    rw [← hu] at hM
    exact hM

/-- Auxiliary: `str.strip()` leaves no leading whitespace. -/
theorem headNS_stripList (l : List Char) : headNS (stripList l) = true := by
  have h3 : ((l.dropWhile isPySpace).reverse.dropWhile isPySpace).reverse <+:
      l.dropWhile isPySpace := by
    apply List.reverse_suffix.1
    rw [List.reverse_reverse]
    exact List.dropWhile_suffix isPySpace
  exact headNS_of_prefix h3 (headNS_dropWhile l)

/-- Auxiliary: `str.strip()` leaves no trailing whitespace. -/
theorem headNS_rev_stripList (l : List Char) : headNS (stripList l).reverse = true := by
  rw [stripList, List.reverse_reverse]
  exact headNS_dropWhile _

/-- Auxiliary: `str.strip()` is the identity when neither end is
whitespace. -/
theorem stripList_eq_self {l : List Char} (h1 : headNS l = true)
    (h2 : headNS l.reverse = true) : stripList l = l := by
  rw [stripList, dropWhile_eq_self_of_headNS h1, dropWhile_eq_self_of_headNS h2,
    List.reverse_reverse]

/-- Auxiliary: character-level and shape-level facts about the output of
`normalize_text`: every character is clean, no two adjacent characters are
both whitespace, and neither end is whitespace. -/
theorem normalizeText_shape (nfkd : String → String) (x : String) :
    (∀ c ∈ (normalizeText nfkd x).data, cleanChar c = true) ∧
    List.Chain' sepOk (normalizeText nfkd x).data ∧
    headNS (normalizeText nfkd x).data = true ∧
    headNS (normalizeText nfkd x).data.reverse = true := by
  rw [normalizeText]
  refine ⟨?_, ?_, ?_, ?_⟩
  · intro c hc
    have hmem : c ∈ collapseWs (filterAllowed (removePoss (nfkd (pyLower x)).data)) :=
      (stripList_contiguous _).sublist.subset hc
    rcases mem_collapseAux _ false c hmem with h | ⟨h1, h2⟩
    · rw [cleanChar, h]
      simp
    · have := (List.mem_filter.1 h1).2
      rw [cleanChar]
      simp only [Bool.or_eq_true] at this ⊢
      rcases this with (h | h) | h
      · exact Or.inl (Or.inl h)
      · exact Or.inl (Or.inr h)
      · rw [h] at h2
        exact Bool.noConfusion h2
  · exact List.Chain'.infix ((collapseAux_chain _).1) (stripList_contiguous _)
  · exact headNS_stripList _
  · exact headNS_rev_stripList _

/-- C5: `normalize_text` is total (it is a function on all strings, defined
with no failing operation) and idempotent: provided the external NFKD
ASCII-fold collaborator fixes pure-ASCII strings — true of
`unicodedata.normalize(\x27NFKD\x27,·).encode(\x27ascii\x27,\x27ignore\x27)` —
applying `normalize_text` to its own output returns that output unchanged,
for every input string. -/
theorem normalizeText_idempotent (nfkd : String → String)
    (hid : ∀ t : String, (∀ c ∈ t.data, c.toNat < 128) → nfkd t = t) (x : String) :
    normalizeText nfkd (normalizeText nfkd x) = normalizeText nfkd x := by
  obtain ⟨hclean, hchain, hh, hhr⟩ := normalizeText_shape nfkd x
  have hlow : pyLower (normalizeText nfkd x) = normalizeText nfkd x :=
    pyLower_id_of_clean hclean
  have hnf : nfkd (normalizeText nfkd x) = normalizeText nfkd x :=
    hid _ (fun c hc => clean_lt128 (hclean c hc))
  have hrp : removePoss (normalizeText nfkd x).data = (normalizeText nfkd x).data :=
    removePoss_no_apos _ (fun c hc => clean_ne_apos (hclean c hc))
  have hfa : filterAllowed (normalizeText nfkd x).data = (normalizeText nfkd x).data :=
    List.filter_eq_self.2 (fun c hc => clean_allowed (hclean c hc))
  have hcw : collapseWs (normalizeText nfkd x).data = (normalizeText nfkd x).data :=
    (collapseAux_id _ (fun c hc hs => clean_space_eq (hclean c hc) hs) hchain).1
  have hst : stripList (normalizeText nfkd x).data = (normalizeText nfkd x).data :=
    stripList_eq_self hh hhr
  conv_lhs => rw [normalizeText, hlow, hnf, hrp, hfa, hcw, hst]

/-- C5 witness: idempotence at a concrete messy input, with the identity
function standing in for the ASCII-fixing NFKD collaborator. -/
theorem normalizeText_idempotent_witness :
    normalizeText id (normalizeText id "  Hello,,   WORLD 123!!  ") =
      normalizeText id "  Hello,,   WORLD 123!!  " :=
  normalizeText_idempotent id (fun _ _ => rfl) "  Hello,,   WORLD 123!!  "

/-- C1 amended theorem: within the three corpus-answering branches
(Moroccan-city, general-Morocco, generic) an exact normalized corpus-question
match returns that entry with score 1.0 before any scoring runs. The
weather, distance, global-city and foreign-country branches run earlier and
bypass the exact match, so the hypotheses exclude them: the intent is
neither `ask_weather` nor `ask_distance`, and either a Moroccan city was
detected or no global city and no non-Morocco country was. -/
theorem getAnswer_exact_match_in_corpus_branches (prm : ExtPrm) (R : Retriever)
    (input : String) (topK : Nat) (e : QAEntry)
    (h0 : ¬ pyStrip input = "")
    (hw : detectIntent prm input ≠ some "ask_weather")
    (hd : detectIntent prm input ≠ some "ask_distance")
    (hbr : (detectCity R input).1.isSome = true ∨
      ((detectCity R input).2 = none ∧
        ∀ c, detectCountry R input = some c → pyLower c = "morocco"))
    (he : R.qaList.find? (fun x => normQ prm x == normalizeText prm.nfkd input) = some e) :
    getAnswer prm R input topK = [(e.assistant, 1)] := by
  rw [getAnswer, if_neg h0]
  dsimp only []
  rw [if_neg (fun hq => hw (eq_of_beq hq)), if_neg (fun hq => hd (eq_of_beq hq))]
  cases hmc : (detectCity R input).1 with
  | some c =>
    dsimp only []
    rw [answerMoroccanCityQuery]
    dsimp only []
    rw [he]
  | none =>
    rcases hbr with hl | ⟨hgc, hco⟩
    · rw [hmc] at hl
      exact absurd hl (by simp)
    · rw [hgc]
      cases hco2 : detectCountry R input with
      | some country =>
        have hmor : pyLower country = "morocco" := hco country hco2
        dsimp only []
        rw [if_neg (not_not_intro hmor)]
        by_cases hmm : isMoroccoMentioned input = true
        · rw [if_pos hmm, answerGeneralMoroccoQuery]
          dsimp only []
          rw [he]
        · rw [if_neg hmm, answerGenericQuery]
          dsimp only []
          rw [he]
      | none =>
        dsimp only []
        by_cases hmm : isMoroccoMentioned input = true
        · rw [if_pos hmm, answerGeneralMoroccoQuery]
          dsimp only []
          rw [he]
        · rw [if_neg hmm, answerGenericQuery]
          dsimp only []
          rw [he]

unseal Rat.mul Rat.inv Rat.add Rat.sub in
/-- C1 witness: a greeting input that exactly matches a corpus question in
the generic branch returns that entry with score 1.0. -/
theorem getAnswer_exact_match_in_corpus_branches_witness :
    getAnswer witnessPrm retrHello "hello" 3 = [("Hi! Ask me about Morocco.", 1)] :=
  getAnswer_exact_match_in_corpus_branches witnessPrm retrHello "hello" 3
    ⟨"hello", "Hi! Ask me about Morocco.", "", "greeting"⟩
    (by decide) (by decide) (by decide)
    (Or.inr ⟨by decide, fun c hc => by
      rw [show detectCountry retrHello "hello" = none from by decide] at hc
      exact Option.noConfusion hc⟩)
    (by decide)

unseal Rat.mul Rat.inv Rat.add Rat.sub in
/-- C1 counterexample: the input `weather in rabat` matches a corpus question
exactly, yet the weather branch runs first: the classifier returns
`ask_weather`, the Moroccan city `rabat` is detected, the weather lookup
fails, and the engine returns the retry prompt with score 0.5 — not the
matched entry with score 1.0 (indeed not any corpus answer with score 1.0). -/
theorem getAnswer_exact_match_shadowed_counterexample :
    (retrC1.qaList.find? (fun x =>
      normQ witnessPrm x == normalizeText witnessPrm.nfkd "weather in rabat")).isSome = true ∧
    getAnswer witnessPrm retrC1 "weather in rabat" 3 = [(weatherFailMsg, 1/2)] ∧
    retrC1.qaList.all (fun e =>
      !decide ([(weatherFailMsg, (1 : ℚ)/2)] = [(e.assistant, 1)])) = true :=
  ⟨by decide, by decide, by decide⟩

/-- Auxiliary: a common run is no longer than either list. -/
theorem runLen_le : ∀ x y : List Char, runLen x y ≤ x.length ∧ runLen x y ≤ y.length
  | [], y => by rw [runLen.eq_def]; cases y <;> exact ⟨Nat.zero_le _, Nat.zero_le _⟩
  | c :: t, [] => by rw [runLen.eq_def]; exact ⟨Nat.zero_le _, Nat.zero_le _⟩
  | c :: t, d :: u => by
    rw [runLen]
    by_cases h : c == d
    · rw [if_pos h]
      have := runLen_le t u
      exact ⟨Nat.succ_le_succ this.1, Nat.succ_le_succ this.2⟩
    · rw [if_neg h]
      exact ⟨Nat.zero_le _, Nat.zero_le _⟩

/-- Auxiliary: the longest matching block lies inside both strings. -/
theorem bestBlock_bounds (a b : List Char) :
    (bestBlock a b).2.2 = 0 ∨
      ((bestBlock a b).1 + (bestBlock a b).2.2 ≤ a.length ∧
       (bestBlock a b).2.1 + (bestBlock a b).2.2 ≤ b.length) := by
  have key : ∀ t : Nat × Nat × Nat,
      (t.2.2 = 0 ∨ (t.1 + t.2.2 ≤ a.length ∧ t.2.1 + t.2.2 ≤ b.length)) →
      ∀ i ∈ List.range a.length,
      ((List.range b.length).foldl (fun acc2 j =>
        let k := runLen (a.drop i) (b.drop j)
        if k > acc2.2.2 then (i, j, k) else acc2) t).2.2 = 0 ∨
      (((List.range b.length).foldl (fun acc2 j =>
        let k := runLen (a.drop i) (b.drop j)
        if k > acc2.2.2 then (i, j, k) else acc2) t).1 +
       ((List.range b.length).foldl (fun acc2 j =>
        let k := runLen (a.drop i) (b.drop j)
        if k > acc2.2.2 then (i, j, k) else acc2) t).2.2 ≤ a.length ∧
       ((List.range b.length).foldl (fun acc2 j =>
        let k := runLen (a.drop i) (b.drop j)
        if k > acc2.2.2 then (i, j, k) else acc2) t).2.1 +
       ((List.range b.length).foldl (fun acc2 j =>
        let k := runLen (a.drop i) (b.drop j)
        if k > acc2.2.2 then (i, j, k) else acc2) t).2.2 ≤ b.length) := by
    intro t ht i hi
    refine @List.foldlRecOn (Nat × Nat × Nat) Nat
      (fun t => t.2.2 = 0 ∨ (t.1 + t.2.2 ≤ a.length ∧ t.2.1 + t.2.2 ≤ b.length))
      (List.range b.length)
      (fun acc2 j =>
        let k := runLen (a.drop i) (b.drop j)
        if k > acc2.2.2 then (i, j, k) else acc2) t ht ?_
    intro acc2 hacc2 j hj
    dsimp only []
    by_cases hk : runLen (a.drop i) (b.drop j) > acc2.2.2
    · rw [if_pos hk]
      right
      have h1 := (runLen_le (a.drop i) (b.drop j)).1
      have h2 := (runLen_le (a.drop i) (b.drop j)).2
      rw [List.length_drop] at h1 h2
      have hia : i < a.length := List.mem_range.1 hi
      have hjb : j < b.length := List.mem_range.1 hj
      constructor
      · show i + runLen (a.drop i) (b.drop j) ≤ a.length
        omega
      · show j + runLen (a.drop i) (b.drop j) ≤ b.length
        omega
    · rw [if_neg hk]
      exact hacc2
  rw [bestBlock]
  refine @List.foldlRecOn (Nat × Nat × Nat) Nat
    (fun t => t.2.2 = 0 ∨ (t.1 + t.2.2 ≤ a.length ∧ t.2.1 + t.2.2 ≤ b.length))
    (List.range a.length)
    (fun acc i =>
      (List.range b.length).foldl (fun acc2 j =>
        let k := runLen (a.drop i) (b.drop j)
        if k > acc2.2.2 then (i, j, k) else acc2) acc) (0, 0, 0) (Or.inl rfl) ?_
  intro acc hacc i hi
  exact key acc hacc i hi

/-- Auxiliary: the total matched size is no larger than either string. -/
theorem matchSumF_le : ∀ (f : Nat) (a b : List Char),
    matchSumF f a b ≤ a.length ∧ matchSumF f a b ≤ b.length := by
  intro f
  induction f with
  | zero => intro a b; exact ⟨Nat.zero_le _, Nat.zero_le _⟩
  | succ f ih =>
    intro a b
    rw [matchSumF]
    rcases hbb : bestBlock a b with ⟨i, j, k⟩
    have hb := bestBlock_bounds a b
    rw [hbb] at hb
    dsimp only [] at hb ⊢
    by_cases hk : k = 0
    · rw [if_pos hk]
      exact ⟨Nat.zero_le _, Nat.zero_le _⟩
    · rw [if_neg hk]
      rcases hb with hb | ⟨hb1, hb2⟩
      · exact absurd hb hk
      · have i1 := ih (a.take i) (b.take j)
        have i2 := ih (a.drop (i + k)) (b.drop (j + k))
        simp only [List.length_take, List.length_drop] at i1 i2
        constructor
        · have := i1.1
          have := i2.1
          omega
        · have := i1.2
          have := i2.2
          omega

/-- Auxiliary: `SequenceMatcher.ratio` lies in `[0, 1]`. -/
theorem seqRatio_bounds (a b : String) : 0 ≤ seqRatio a b ∧ seqRatio a b ≤ 1 := by
  rw [seqRatio]
  by_cases h0 : a.data.length + b.data.length = 0
  · rw [if_pos h0]
    norm_num
  · rw [if_neg h0]
    have hpos : (0 : ℚ) < (a.data.length : ℚ) + (b.data.length : ℚ) := by
      have : 0 < a.data.length + b.data.length := Nat.pos_of_ne_zero h0
      exact_mod_cast this
    have hM := matchSumF_le (a.data.length + b.data.length) a.data b.data
    constructor
    · apply div_nonneg _ (le_of_lt hpos)
      positivity
    · rw [div_le_one hpos]
      have h1 : (matchSumF (a.data.length + b.data.length) a.data b.data : ℚ) ≤
          (a.data.length : ℚ) := by exact_mod_cast hM.1
      have h2 : (matchSumF (a.data.length + b.data.length) a.data b.data : ℚ) ≤
          (b.data.length : ℚ) := by exact_mod_cast hM.2
      linarith

/-- Auxiliary: a one-element answer list with a score in `[0, 9/5]` is
sorted and bounded. -/
theorem ok_singleton (s : String) (q : ℚ) (h1 : 0 ≤ q) (h2 : q ≤ 9/5) :
    List.Pairwise (fun a b : String × ℚ => b.2 ≤ a.2) [(s, q)] ∧
      ∀ p ∈ [(s, q)], 0 ≤ p.2 ∧ p.2 ≤ 9/5 := by
  refine ⟨List.pairwise_singleton _ _, ?_⟩
  intro p hp
  rw [List.mem_singleton] at hp
  subst hp
  exact ⟨h1, h2⟩

/-- Auxiliary: the Python stable descending score sort is sorted. -/
theorem sortDescQ_sorted (l : List (String × ℚ)) :
    List.Pairwise (fun a b : String × ℚ => b.2 ≤ a.2) (sortDescQ l) := by
  haveI : IsTotal (String × ℚ) (fun a b => b.2 ≤ a.2) := ⟨fun a b => le_total b.2 a.2⟩
  haveI : IsTrans (String × ℚ) (fun a b => b.2 ≤ a.2) := ⟨fun a b c hab hbc => le_trans hbc hab⟩
  exact List.sorted_insertionSort _ l

/-- Auxiliary: sorting permutes, so membership is preserved. -/
theorem sortDescQ_mem {l : List (String × ℚ)} {p : String × ℚ} (h : p ∈ sortDescQ l) :
    p ∈ l := (List.perm_insertionSort _ l).mem_iff.1 h

/-- Auxiliary: the greeting/farewell/troll shortcut only ever returns one
answer with score 1.0. -/
theorem shortcutAnswer_some {prm : ExtPrm} {R : Retriever} {d : Option String}
    {r : List (String × ℚ)} (h : shortcutAnswer prm R d = some r) :
    ∃ s, r = [(s, 1)] := by
  rw [shortcutAnswer.eq_def] at h
  cases d with
  | none => exact Option.noConfusion h
  | some it =>
    dsimp only [] at h
    by_cases h1 : shortcutSet.contains it = true
    · rw [if_pos h1] at h
      by_cases h2 : (R.qaList.filter (fun e => normIntentE e == it)).isEmpty = true
      · rw [if_pos h2] at h
        exact Option.noConfusion h
      · rw [if_neg h2] at h
        exact ⟨_, (Option.some.inj h).symm⟩
    · rw [if_neg h1] at h
      exact Option.noConfusion h

/-- Auxiliary: the 60/40 tf-idf–fuzzy blend stays in `[0, 1]`. -/
theorem blend6040_bounds {t f : ℚ} (ht1 : 0 ≤ t) (ht2 : t ≤ 1) (hf1 : 0 ≤ f)
    (hf2 : f ≤ 1) : 0 ≤ (6/10 : ℚ) * t + (4/10 : ℚ) * f ∧
      (6/10 : ℚ) * t + (4/10 : ℚ) * f ≤ 1 :=
  ⟨by linarith, by linarith⟩

/-- Auxiliary: the 85/15 tf-idf–fuzzy blend stays in `[0, 1]`. -/
theorem blend8515_bounds {t f : ℚ} (ht1 : 0 ≤ t) (ht2 : t ≤ 1) (hf1 : 0 ≤ f)
    (hf2 : f ≤ 1) : 0 ≤ (85/100 : ℚ) * t + (15/100 : ℚ) * f ∧
      (85/100 : ℚ) * t + (15/100 : ℚ) * f ≤ 1 :=
  ⟨by linarith, by linarith⟩

/-- Auxiliary: the keyword boost accumulator never goes negative. -/
theorem boostFold_nonneg :
    ∀ (ws : List String) (b0 : ℚ), 0 ≤ b0 →
      0 ≤ ws.foldl (fun b w => b + (if 6 < w.length then (1/4 : ℚ) else 3/20)) b0 := by
  intro ws
  induction ws with
  | nil => intro b0 h; exact h
  | cons w t ih =>
    intro b0 h
    rw [List.foldl_cons]
    apply ih
    by_cases hl : 6 < w.length
    · rw [if_pos hl]; linarith
    · rw [if_neg hl]; linarith

/-- Auxiliary: the boosted general-Morocco per-candidate score lies in
`[0, 9/5]`. -/
theorem generalMoroccoScore_bounds (prm : ExtPrm) (R : Retriever) (userNorm : String)
    (keyWords : List String) (i : Nat)
    (htf : ∀ s j, 0 ≤ prm.tfidf s j ∧ prm.tfidf s j ≤ 1) :
    0 ≤ generalMoroccoScore prm R userNorm keyWords i ∧
      generalMoroccoScore prm R userNorm keyWords i ≤ 9/5 := by
  rw [generalMoroccoScore]
  have ht := htf userNorm i
  have hf : 0 ≤ fuzzySimilarity userNorm (normQ prm (entryAt R i)) ∧
      fuzzySimilarity userNorm (normQ prm (entryAt R i)) ≤ 1 :=
    seqRatio_bounds userNorm (normQ prm (entryAt R i))
  have hfs := blend8515_bounds ht.1 ht.2 hf.1 hf.2
  set fs := (85/100 : ℚ) * prm.tfidf userNorm i +
    (15/100 : ℚ) * fuzzySimilarity userNorm (normQ prm (entryAt R i)) with hfsdef
  have hb0 : 0 ≤ (keyWords.filter
      (fun w => substrB w (pyLower (normQ prm (entryAt R i))))).foldl
      (fun b w => b + (if 6 < w.length then (1/4 : ℚ) else 3/20)) 0 :=
    boostFold_nonneg _ 0 (le_refl 0)
  set b0 := (keyWords.filter
      (fun w => substrB w (pyLower (normQ prm (entryAt R i))))).foldl
      (fun b w => b + (if 6 < w.length then (1/4 : ℚ) else 3/20)) 0 with hb0def
  have hmin1 : min (4/5 : ℚ) b0 ≤ 4/5 := min_le_left _ _
  by_cases hpos : 0 < min (4/5 : ℚ) b0
  · rw [if_pos hpos]
    constructor
    · apply mul_nonneg hfs.1
      linarith
    · have h1 : fs * (1 + min (4/5 : ℚ) b0) ≤ 1 * (1 + min (4/5 : ℚ) b0) :=
        mul_le_mul_of_nonneg_right hfs.2 (by linarith)
      linarith
  · rw [if_neg hpos]
    exact ⟨hfs.1, by linarith [hfs.2]⟩

/-- Auxiliary: `numpy max` of scores in `[0, 1]` stays in `[0, 1]` (and is
`0` on the empty list). -/
theorem maxQList_bounds :
    ∀ l : List ℚ, (∀ x ∈ l, 0 ≤ x ∧ x ≤ 1) → 0 ≤ maxQList l ∧ maxQList l ≤ 1 := by
  have aux : ∀ (t : List ℚ) (x : ℚ), 0 ≤ x ∧ x ≤ 1 → (∀ y ∈ t, 0 ≤ y ∧ y ≤ 1) →
      0 ≤ t.foldl max x ∧ t.foldl max x ≤ 1 := by
    intro t
    induction t with
    | nil => intro x hx _; exact hx
    | cons y u ih =>
      intro x hx hy
      rw [List.foldl_cons]
      apply ih
      · have h1 := hy y (List.mem_cons_self y u)
        exact ⟨le_trans hx.1 (le_max_left x y), max_le hx.2 h1.2⟩
      · intro z hz
        exact hy z (List.mem_cons_of_mem y hz)
  intro l h
  cases l with
  | nil => exact ⟨le_refl 0, by rw [maxQList]; norm_num⟩
  | cons x t =>
    rw [maxQList]
    exact aux t x (h x (List.mem_cons_self x t)) (fun y hy => h y (List.mem_cons_of_mem x hy))

/-- Auxiliary: the shared scoring tail of the Moroccan-city and generic
corpus branches — fallback on empty candidates, else the 60/40 blend,
threshold filter, descending sort and truncation — is sorted with scores in
`[0, 9/5]`, for any candidate index list. -/
theorem scoredTail_ok (prm : ExtPrm) (R : Retriever) (input : String) (topK : Nat)
    (cI : List Nat) (htf : ∀ s j, 0 ≤ prm.tfidf s j ∧ prm.tfidf s j ≤ 1) :
    List.Pairwise (fun a b : String × ℚ => b.2 ≤ a.2)
      (if cI.isEmpty then [(prm.choose genericFallback, 0)]
       else
        if (cI.filterMap (fun i =>
            if (6/10 : ℚ) * prm.tfidf (normalizeText prm.nfkd input) i +
                (4/10 : ℚ) * fuzzySimilarity (normalizeText prm.nfkd input)
                  (normQ prm (entryAt R i)) > 3/20 then
              some ((entryAt R i).assistant,
                (6/10 : ℚ) * prm.tfidf (normalizeText prm.nfkd input) i +
                  (4/10 : ℚ) * fuzzySimilarity (normalizeText prm.nfkd input)
                    (normQ prm (entryAt R i)))
            else none)).isEmpty then [(prm.choose genericFallback, 0)]
        else (sortDescQ (cI.filterMap (fun i =>
            if (6/10 : ℚ) * prm.tfidf (normalizeText prm.nfkd input) i +
                (4/10 : ℚ) * fuzzySimilarity (normalizeText prm.nfkd input)
                  (normQ prm (entryAt R i)) > 3/20 then
              some ((entryAt R i).assistant,
                (6/10 : ℚ) * prm.tfidf (normalizeText prm.nfkd input) i +
                  (4/10 : ℚ) * fuzzySimilarity (normalizeText prm.nfkd input)
                    (normQ prm (entryAt R i)))
            else none))).take topK) ∧
    ∀ p ∈ (if cI.isEmpty then [(prm.choose genericFallback, 0)]
       else
        if (cI.filterMap (fun i =>
            if (6/10 : ℚ) * prm.tfidf (normalizeText prm.nfkd input) i +
                (4/10 : ℚ) * fuzzySimilarity (normalizeText prm.nfkd input)
                  (normQ prm (entryAt R i)) > 3/20 then
              some ((entryAt R i).assistant,
                (6/10 : ℚ) * prm.tfidf (normalizeText prm.nfkd input) i +
                  (4/10 : ℚ) * fuzzySimilarity (normalizeText prm.nfkd input)
                    (normQ prm (entryAt R i)))
            else none)).isEmpty then [(prm.choose genericFallback, 0)]
        else (sortDescQ (cI.filterMap (fun i =>
            if (6/10 : ℚ) * prm.tfidf (normalizeText prm.nfkd input) i +
                (4/10 : ℚ) * fuzzySimilarity (normalizeText prm.nfkd input)
                  (normQ prm (entryAt R i)) > 3/20 then
              some ((entryAt R i).assistant,
                (6/10 : ℚ) * prm.tfidf (normalizeText prm.nfkd input) i +
                  (4/10 : ℚ) * fuzzySimilarity (normalizeText prm.nfkd input)
                    (normQ prm (entryAt R i)))
            else none))).take topK),
      0 ≤ p.2 ∧ p.2 ≤ 9/5 := by
  by_cases h1 : cI.isEmpty = true
  · rw [if_pos h1]
    exact ok_singleton _ 0 (by norm_num) (by norm_num)
  · rw [if_neg h1]
    by_cases h2 : (cI.filterMap (fun i =>
        if (6/10 : ℚ) * prm.tfidf (normalizeText prm.nfkd input) i +
            (4/10 : ℚ) * fuzzySimilarity (normalizeText prm.nfkd input)
              (normQ prm (entryAt R i)) > 3/20 then
          some ((entryAt R i).assistant,
            (6/10 : ℚ) * prm.tfidf (normalizeText prm.nfkd input) i +
              (4/10 : ℚ) * fuzzySimilarity (normalizeText prm.nfkd input)
                (normQ prm (entryAt R i)))
        else none)).isEmpty = true
    · rw [if_pos h2]
      exact ok_singleton _ 0 (by norm_num) (by norm_num)
    · rw [if_neg h2]
      constructor
      · exact List.Pairwise.sublist (List.take_sublist _ _) (sortDescQ_sorted _)
      · intro p hp
        have hp2 := sortDescQ_mem (List.take_subset _ _ hp)
        rcases List.mem_filterMap.1 hp2 with ⟨i, hi, hfi⟩
        split at hfi
        · obtain rfl := Option.some.inj hfi
          have ht := htf (normalizeText prm.nfkd input) i
          have hfz : 0 ≤ fuzzySimilarity (normalizeText prm.nfkd input)
                (normQ prm (entryAt R i)) ∧
              fuzzySimilarity (normalizeText prm.nfkd input)
                (normQ prm (entryAt R i)) ≤ 1 :=
            seqRatio_bounds _ _
          have hb := blend6040_bounds ht.1 ht.2 hfz.1 hfz.2
          exact ⟨hb.1, le_trans hb.2 (by norm_num)⟩
        · exact Option.noConfusion hfi

/-- Auxiliary: the Moroccan-city corpus branch returns a sorted list with
scores in `[0, 9/5]` (its own scores in fact stay in `[0, 1]`). -/
theorem answerMoroccanCityQuery_ok (prm : ExtPrm) (R : Retriever) (input c : String)
    (topK : Nat) (htf : ∀ s j, 0 ≤ prm.tfidf s j ∧ prm.tfidf s j ≤ 1) :
    List.Pairwise (fun a b : String × ℚ => b.2 ≤ a.2)
      (answerMoroccanCityQuery prm R input c topK) ∧
    ∀ p ∈ answerMoroccanCityQuery prm R input c topK, 0 ≤ p.2 ∧ p.2 ≤ 9/5 := by
  rw [answerMoroccanCityQuery]
  dsimp only []
  cases hf : R.qaList.find? (fun e => normQ prm e == normalizeText prm.nfkd input) with
  | some e => exact ok_singleton _ 1 (by norm_num) (by norm_num)
  | none =>
    cases hs : shortcutAnswer prm R (detectIntent prm input) with
    | some r =>
      obtain ⟨s, rfl⟩ := shortcutAnswer_some hs
      exact ok_singleton _ 1 (by norm_num) (by norm_num)
    | none =>
      cases hdi : detectIntent prm input
      · exact scoredTail_ok prm R input topK _ htf
      · exact scoredTail_ok prm R input topK _ htf

/-- Auxiliary: the generic corpus branch returns a sorted list with scores
in `[0, 9/5]` (its own scores in fact stay in `[0, 1]`). -/
theorem answerGenericQuery_ok (prm : ExtPrm) (R : Retriever) (input : String)
    (d : Option String) (topK : Nat)
    (htf : ∀ s j, 0 ≤ prm.tfidf s j ∧ prm.tfidf s j ≤ 1) :
    List.Pairwise (fun a b : String × ℚ => b.2 ≤ a.2)
      (answerGenericQuery prm R input d topK) ∧
    ∀ p ∈ answerGenericQuery prm R input d topK, 0 ≤ p.2 ∧ p.2 ≤ 9/5 := by
  rw [answerGenericQuery]
  dsimp only []
  cases hf : R.qaList.find? (fun e => normQ prm e == normalizeText prm.nfkd input) with
  | some e => exact ok_singleton _ 1 (by norm_num) (by norm_num)
  | none =>
    cases hs : shortcutAnswer prm R d with
    | some r =>
      obtain ⟨s, rfl⟩ := shortcutAnswer_some hs
      exact ok_singleton _ 1 (by norm_num) (by norm_num)
    | none =>
      cases hdi : detectIntent prm input
      · exact scoredTail_ok prm R input 1 _ htf
      · exact scoredTail_ok prm R input 1 _ htf

set_option maxHeartbeats 1000000 in
/-- Auxiliary: the general-Morocco corpus branch returns a sorted list with
scores in `[0, 9/5]`; the keyword boost can push scores above 1. -/
theorem answerGeneralMoroccoQuery_ok (prm : ExtPrm) (R : Retriever) (input : String)
    (topK : Nat) (htf : ∀ s j, 0 ≤ prm.tfidf s j ∧ prm.tfidf s j ≤ 1) :
    List.Pairwise (fun a b : String × ℚ => b.2 ≤ a.2)
      (answerGeneralMoroccoQuery prm R input topK) ∧
    ∀ p ∈ answerGeneralMoroccoQuery prm R input topK, 0 ≤ p.2 ∧ p.2 ≤ 9/5 := by
  rw [answerGeneralMoroccoQuery]
  dsimp only []
  cases hf : R.qaList.find? (fun e => normQ prm e == normalizeText prm.nfkd input) with
  | some e => exact ok_singleton _ 1 (by norm_num) (by norm_num)
  | none =>
    cases hs : shortcutAnswer prm R (detectIntent prm input) with
    | some r =>
      obtain ⟨s, rfl⟩ := shortcutAnswer_some hs
      exact ok_singleton _ 1 (by norm_num) (by norm_num)
    | none =>
      dsimp only []
      split
      · exact ok_singleton _ 0 (by norm_num) (by norm_num)
      · split
        · refine ok_singleton _ _ ?_ ?_
          · exact (maxQList_bounds _ (fun x hx => by
              rcases List.mem_map.1 hx with ⟨i, hi, rfl⟩
              exact htf _ i)).1
          · refine le_trans (maxQList_bounds _ (fun x hx => by
              rcases List.mem_map.1 hx with ⟨i, hi, rfl⟩
              exact htf _ i)).2 (by norm_num)
        · constructor
          · exact List.Pairwise.sublist (List.take_sublist _ _) (sortDescQ_sorted _)
          · intro p hp
            have hp2 := sortDescQ_mem (List.take_subset _ _ hp)
            rcases List.mem_filterMap.1 hp2 with ⟨i, hi, hfi⟩
            split at hfi
            · obtain rfl := Option.some.inj hfi
              exact generalMoroccoScore_bounds prm R _ _ i htf
            · exact Option.noConfusion hfi

set_option maxHeartbeats 1000000 in
/-- C2 amended theorem: for every input and every `top_k`, assuming the
external TF-IDF cosine stays in `[0, 1]` (true of scikit-learn's
`cosine_similarity` on non-negative TF-IDF vectors), the returned list is
sorted by score in descending order, and every score lies in `[0, 9/5]`.
The claimed interval `[0, 1]` holds in every branch except general-Morocco,
where the keyword boost multiplies the blended score (at most 1) by up to
`1 + 0.8`. -/
theorem getAnswer_sorted_scores_bounded (prm : ExtPrm) (R : Retriever)
    (input : String) (topK : Nat)
    (htf : ∀ s j, 0 ≤ prm.tfidf s j ∧ prm.tfidf s j ≤ 1) :
    List.Pairwise (fun a b : String × ℚ => b.2 ≤ a.2) (getAnswer prm R input topK) ∧
    ∀ p ∈ getAnswer prm R input topK, 0 ≤ p.2 ∧ p.2 ≤ 9/5 := by
  rw [getAnswer]
  by_cases h0 : pyStrip input = ""
  · rw [if_pos h0]
    exact ok_singleton _ 0 (by norm_num) (by norm_num)
  · rw [if_neg h0]
    dsimp only []
    by_cases hw : (detectIntent prm input == some "ask_weather") = true
    · rw [if_pos hw]
      cases (detectCity R input).1 with
      | some c =>
        dsimp only []
        cases prm.weather c with
        | none => exact ok_singleton _ (1/2) (by norm_num) (by norm_num)
        | some w => exact ok_singleton _ 1 (by norm_num) (by norm_num)
      | none =>
        cases (detectCity R input).2 with
        | some g =>
          dsimp only []
          cases prm.weather (orElseStr g.city (orElseStr g.cityAscii "")) with
          | none => exact ok_singleton _ (1/2) (by norm_num) (by norm_num)
          | some w => exact ok_singleton _ 1 (by norm_num) (by norm_num)
        | none => exact ok_singleton _ (1/2) (by norm_num) (by norm_num)
    · rw [if_neg hw]
      by_cases hd : (detectIntent prm input == some "ask_distance") = true
      · rw [if_pos hd]
        by_cases h2 : 2 ≤ (extractCitiesFromText prm R (pyStrip input) 2).length
        · rw [if_pos h2]
          exact ok_singleton _ 1 (by norm_num) (by norm_num)
        · rw [if_neg h2]
          split
          · rename_i r hA
            split at hA
            · split at hA
              · obtain rfl := Option.some.inj hA
                exact ok_singleton _ 1 (by norm_num) (by norm_num)
              · exact Option.noConfusion hA
            · exact Option.noConfusion hA
          · split
            · exact ok_singleton _ 1 (by norm_num) (by norm_num)
            · exact ok_singleton _ (1/2) (by norm_num) (by norm_num)
      · rw [if_neg hd]
        cases (detectCity R input).1 with
        | some c => exact answerMoroccanCityQuery_ok prm R input c topK htf
        | none =>
          cases (detectCity R input).2 with
          | some g => exact ok_singleton _ 1 (by norm_num) (by norm_num)
          | none =>
            dsimp only []
            split
            · rename_i r hC
              split at hC
              · split at hC
                · obtain rfl := Option.some.inj hC
                  exact ok_singleton _ (3/10) (by norm_num) (by norm_num)
                · exact Option.noConfusion hC
              · exact Option.noConfusion hC
            · split
              · exact answerGeneralMoroccoQuery_ok prm R input topK htf
              · exact answerGenericQuery_ok prm R input (detectIntent prm input) topK htf

/-- C2 witness: sortedness and score bounds at a concrete engine state and
input, with a constant in-range TF-IDF collaborator. -/
theorem getAnswer_sorted_scores_bounded_witness :
    List.Pairwise (fun a b : String × ℚ => b.2 ≤ a.2)
      (getAnswer witnessPrm retrHello "hello" 3) ∧
    ∀ p ∈ getAnswer witnessPrm retrHello "hello" 3, 0 ≤ p.2 ∧ p.2 ≤ 9/5 :=
  getAnswer_sorted_scores_bounded witnessPrm retrHello "hello" 3
    (fun _ _ => by constructor <;> norm_num [witnessPrm])

unseal Rat.mul Rat.inv Rat.add Rat.sub in
/-- C2 counterexample: the external TF-IDF of `witnessPrm` is the constant
`0.9`, inside `[0, 1]`, yet on the input `morocco joke` the general-Morocco
branch boosts the blended score of the single corpus entry to
`6363/5000 = 1.2726 > 1`, so the returned score leaves the claimed `[0, 1]`
interval. -/
theorem getAnswer_score_above_one_counterexample :
    witnessPrm.tfidf "morocco joke" 0 = 9/10 ∧
    getAnswer witnessPrm retrC2 "morocco joke" 1 =
      [("Here is a Moroccan joke for you.", 6363/5000)] ∧
    (1 : ℚ) < 6363/5000 :=
  ⟨by norm_num [witnessPrm], by decide, by norm_num⟩
